import Mathlib

/-!
Verification of the page-tree construction and rendering engine of the
`api-documenter-hugo` repository.

The definitions below are a shallow embedding of the TypeScript source:

* `HugoDocumenter._getFilenameForApiItem` and its helpers (the
  filename/link resolver),
* the page-content builder (`_writeApiItemPage` and the per-kind table
  writers),
* the excerpt-token hyperlink helper `_appendExcerptTokenWithHyperlinks`,
* the memoized `CustomDocNodes.configuration` singleton,
* the newline-kind selection used when page files are written.

API items are consumed, never produced, by the documenter, so an item is
embedded by exactly the data the embedded functions read from it.
-/

namespace ApiDocumenterHugo

/-- The item kinds of `ApiItemKind` from `@microsoft/api-extractor-model`
that the documenter dispatches on.  `CallSignature` and `IndexSignature`
are carried because they reach the `default` (error) branches of
`_writeApiItemPage`. -/
inductive ApiItemKind where
  | Model
  | Package
  | EntryPoint
  | Class
  | Interface
  | Enum
  | EnumMember
  | Namespace
  | Function
  | Variable
  | TypeAlias
  | Constructor
  | ConstructSignature
  | Method
  | MethodSignature
  | Property
  | PropertySignature
  | CallSignature
  | IndexSignature
deriving DecidableEq, Repr

/-- The kinds whose items carry a parameter list, i.e. the classes to which
`ApiParameterListMixin` is applied in `@microsoft/api-extractor-model`;
`ApiParameterListMixin.isBaseClassOf` answers true exactly for them. -/
def isParameterListKind : ApiItemKind → Bool
  | .Constructor => true
  | .ConstructSignature => true
  | .Method => true
  | .MethodSignature => true
  | .Function => true
  | .CallSignature => true
  | .IndexSignature => true
  | _ => false

/-- The kinds whose items are `ApiDocumentedItem` instances (everything
except the model root and entry points, whose classes do not extend
`ApiDocumentedItem`); `apiItem instanceof ApiDocumentedItem` answers true
exactly for them. -/
def isDocumentedItemKind : ApiItemKind → Bool
  | .Model => false
  | .EntryPoint => false
  | _ => true

/-- The kinds whose items are `ApiDeclaredItem` instances (documented items
other than packages); `apiItem instanceof ApiDeclaredItem` answers true
exactly for them. -/
def isDeclaredItemKind : ApiItemKind → Bool
  | .Model => false
  | .EntryPoint => false
  | .Package => false
  | _ => true

/-- One entry of an item's ancestor hierarchy, carrying the fields
`_getFilenameForApiItem` reads: the kind tag, the display name (for entry
points the display name is the import sub-path) and the 1-based overload
index used by parameter-list kinds. -/
structure ItemNode where
  kind : ApiItemKind
  displayName : String
  overloadIndex : Nat
deriving DecidableEq, Repr

/-- An API item, represented by its hierarchy as returned by
`ApiItem.getHierarchy()`: the chain of ancestors starting at the `Model`
root and ending with the item itself. -/
abbrev ItemHierarchy := List ItemNode

/-- Modelled from the spec: `Utilities.getSafeFilenameForName` lives in
`src/utils/Utilities.ts`, which is not part of the provided sources.  Spec
section 4.2 requires a total, deterministic conversion that replaces the
characters illegal in a path segment with a fixed escape scheme, and its
examples keep letters, digits and case unchanged.  We keep ASCII
alphanumerics together with `-`, `.` and `_` and replace every other
character by `_`. -/
def getSafeFilenameForName (name : String) : String :=
  String.mk (name.data.map (fun c =>
    if c.isAlphanum ∨ c = '-' ∨ c = '.' ∨ c = '_' then c else '_'))

/-- `PackageName.getUnscopedName` from `@rushstack/node-core-library` (an
external collaborator): strip a leading `@scope/` prefix, as described in
spec section 4.2, and leave unscoped names unchanged. -/
def getUnscopedName (s : String) : String :=
  match s.data with
  | '@' :: _ =>
    (match s.data.dropWhile (fun c => c ≠ '/') with
    | [] => s
    | _ :: rest => String.mk rest)
  | _ => s

/-- Fuelled digit accumulator for `natToDecimal`; the fuel is always
sufficient when called with `n + 1`. -/
def natToDecimalAux : Nat → Nat → List Char → List Char
  | 0, _, acc => acc
  | fuel + 1, n, acc =>
      if n / 10 = 0 then Nat.digitChar (n % 10) :: acc
      else natToDecimalAux fuel (n / 10) (Nat.digitChar (n % 10) :: acc)

/-- Decimal numeral conversion for natural numbers, the semantics of the
JavaScript template-literal interpolation `` `_${overloadIndex - 1}` `` in
`_getFilenameForApiItem` for the non-negative numbers that occur there. -/
def natToDecimal (n : Nat) : List Char :=
  natToDecimalAux (n + 1) n []

theorem natToDecimalAux_fuel {fuel fuel' n : Nat} (acc : List Char)
    (h : n < fuel) (h' : n < fuel') :
    natToDecimalAux fuel n acc = natToDecimalAux fuel' n acc := by
  induction fuel generalizing fuel' n acc with
  | zero => omega
  | succ f ih =>
      cases fuel' with
      | zero => omega
      | succ f' =>
          rw [natToDecimalAux, natToDecimalAux]
          by_cases h0 : n / 10 = 0
          · simp [h0]
          · simp only [h0, if_neg]
            exact ih _ (by omega) (by omega)

theorem natToDecimalAux_acc {fuel n : Nat} (acc : List Char) :
    natToDecimalAux fuel n acc = natToDecimalAux fuel n [] ++ acc := by
  induction fuel generalizing n acc with
  | zero => simp [natToDecimalAux]
  | succ f ih =>
      rw [natToDecimalAux, natToDecimalAux]
      by_cases h0 : n / 10 = 0
      · simp [h0]
      · simp only [h0, if_neg]
        rw [ih (Nat.digitChar (n % 10) :: acc), ih [Nat.digitChar (n % 10)]]
        simp

/-- `natToDecimal` packaged as a string. -/
def natToDecimalString (n : Nat) : String :=
  String.mk (natToDecimal n)

theorem natToDecimal_of_lt {n : Nat} (h : n < 10) :
    natToDecimal n = [Nat.digitChar n] := by
  rw [natToDecimal, natToDecimalAux]
  have h0 : n / 10 = 0 := Nat.div_eq_of_lt h
  have hm : n % 10 = n := Nat.mod_eq_of_lt h
  simp [h0, hm]

theorem natToDecimal_of_ge {n : Nat} (h : 10 ≤ n) :
    natToDecimal n = natToDecimal (n / 10) ++ [Nat.digitChar (n % 10)] := by
  rw [natToDecimal, natToDecimalAux]
  have h0 : ¬ n / 10 = 0 := by omega
  rw [if_neg h0]
  rw [natToDecimalAux_acc, natToDecimal,
    @natToDecimalAux_fuel n (n / 10 + 1) (n / 10) [] (by omega) (by omega)]

theorem natToDecimal_ne_nil (n : Nat) : natToDecimal n ≠ [] := by
  rcases Nat.lt_or_ge n 10 with h | h
  · rw [natToDecimal_of_lt h]; simp
  · rw [natToDecimal_of_ge h]; simp

theorem digitChar_isDigit {m : Nat} (h : m < 10) :
    (Nat.digitChar m).isDigit = true := by
  interval_cases m <;> decide

theorem digitChar_inj_of_lt {m n : Nat} (hm : m < 10) (hn : n < 10)
    (h : Nat.digitChar m = Nat.digitChar n) : m = n := by
  interval_cases m <;> interval_cases n <;> first | rfl | (exact absurd h (by decide))

theorem mem_natToDecimal_isDigit (n : Nat) :
    ∀ c ∈ natToDecimal n, c.isDigit = true := by
  induction n using Nat.strong_induction_on with
  | _ n ih =>
    intro c hc
    rcases Nat.lt_or_ge n 10 with h | h
    · rw [natToDecimal_of_lt h] at hc
      simp at hc
      subst hc
      exact digitChar_isDigit h
    · rw [natToDecimal_of_ge h] at hc
      rcases List.mem_append.mp hc with h' | h'
      · exact ih (n / 10) (Nat.div_lt_self (by omega) (by omega)) c h'
      · simp at h'
        subst h'
        exact digitChar_isDigit (Nat.mod_lt _ (by omega))

theorem natToDecimal_inj : ∀ m n : Nat, natToDecimal m = natToDecimal n → m = n := by
  intro m
  induction m using Nat.strong_induction_on with
  | _ m ih =>
    intro n h
    rcases Nat.lt_or_ge m 10 with hm | hm <;> rcases Nat.lt_or_ge n 10 with hn | hn
    · rw [natToDecimal_of_lt hm, natToDecimal_of_lt hn] at h
      simp at h
      exact digitChar_inj_of_lt hm hn h
    · rw [natToDecimal_of_lt hm, natToDecimal_of_ge hn] at h
      have := congrArg List.length h
      simp at this
      exact absurd this (natToDecimal_ne_nil _)
    · rw [natToDecimal_of_ge hm, natToDecimal_of_lt hn] at h
      have := congrArg List.length h
      simp at this
      exact absurd this (natToDecimal_ne_nil _)
    · rw [natToDecimal_of_ge hm, natToDecimal_of_ge hn] at h
      have h2 := List.append_inj' h (by simp)
      have hdiv := ih (m / 10) (Nat.div_lt_self (by omega) (by omega)) (n / 10) h2.1
      have hmod : m % 10 = n % 10 := by
        have := h2.2
        simp at this
        exact digitChar_inj_of_lt (Nat.mod_lt _ (by omega)) (Nat.mod_lt _ (by omega)) this
      omega

/-- The decorated path segment computed for one hierarchy entry in the
`default` arm of `_getFilenameForApiItem`: the filesystem-safe display
name, with the suffix `_<overloadIndex-1>` for parameter-list kinds whose
overload index exceeds 1 and the prefix `var_` for variables. -/
def itemSegment (node : ItemNode) : String :=
  let qualifiedName := getSafeFilenameForName node.displayName
  let qualifiedName :=
    if isParameterListKind node.kind ∧ node.overloadIndex > 1 then
      qualifiedName ++ "_" ++ natToDecimalString (node.overloadIndex - 1)
    else qualifiedName
  if node.kind = ApiItemKind.Variable then "var_" ++ qualifiedName
  else qualifiedName

/-- One step of the hierarchy walk of `_getFilenameForApiItem`: given the
accumulated `baseName`, the current hierarchy entry and whether that entry
is the item being resolved (`hierarchyItem === apiItem`), produce the new
`baseName`. -/
def hierStep (baseName : String) (node : ItemNode) (isLast : Bool) : String :=
  match node.kind with
  | .Model => baseName
  | .EnumMember => baseName
  | .EntryPoint =>
      if node.displayName.length > 0 then
        baseName ++ "/" ++ getSafeFilenameForName (getUnscopedName node.displayName)
      else
        baseName ++ "/_root"
  | .Package =>
      let pkgBase := getSafeFilenameForName (getUnscopedName node.displayName)
      if isLast then pkgBase ++ "/_root" else pkgBase
  | _ => baseName ++ "/" ++ itemSegment node

/-- The hierarchy walk of `_getFilenameForApiItem`: fold `hierStep` over
the hierarchy; the last entry of the hierarchy is the item itself. -/
def buildBaseName (baseName : String) : ItemHierarchy → String
  | [] => baseName
  | node :: rest => buildBaseName (hierStep baseName node rest.isEmpty) rest

/-- The kind of the item a hierarchy stands for: the kind of its last
entry (the hierarchy of a well-formed item is never empty; for the empty
list we answer `Model`, matching the hierarchy of the root). -/
def hierarchyKind (hierarchy : ItemHierarchy) : ApiItemKind :=
  match hierarchy.getLast? with
  | some node => node.kind
  | none => ApiItemKind.Model

/-- `HugoDocumenter._getFilenameForApiItem`: the model root maps to
`_index.md`; every other item walks its hierarchy accumulating `baseName`
and appends `/_index.md`. -/
def getFilenameForApiItem (hierarchy : ItemHierarchy) : String :=
  if hierarchyKind hierarchy = ApiItemKind.Model then "_index.md"
  else buildBaseName "" hierarchy ++ "/_index.md"

/-- `HugoDocumenter._getLinkFilenameForApiItem`: the fixed base URL
(`/docs`) followed by the output filename. -/
def getLinkFilenameForApiItem (hierarchy : ItemHierarchy) : String :=
  "/docs" ++ "/" ++ getFilenameForApiItem hierarchy

/-- Whether the documenter writes a page file for an item of this kind:
`_writeApiItemPage` returns before writing for the entry point with the
empty import path, enum members are never visited by the page recursion,
and call/index signatures would hit the unsupported-kind error branch.
Every other kind reached by the traversal gets a page file. -/
def writesPageFile (hierarchy : ItemHierarchy) : Bool :=
  match hierarchy.getLast? with
  | none => false
  | some node =>
    match node.kind with
    | .EnumMember => false
    | .CallSignature => false
    | .IndexSignature => false
    | .EntryPoint => node.displayName.length > 0
    | _ => true

/-! ### Structure of the hierarchy walk -/

/-- The kinds handled by the `default` arm of the hierarchy-walk switch in
`_getFilenameForApiItem` (every kind except the four with special
segment handling). -/
def isDefaultSegmentKind : ApiItemKind → Bool
  | .Model => false
  | .EnumMember => false
  | .EntryPoint => false
  | .Package => false
  | _ => true

/-- The hierarchy walk restricted to proper ancestors of the resolved
item: every step has `isLast = false`. -/
def buildBasePrefix (baseName : String) : List ItemNode → String
  | [] => baseName
  | node :: rest => buildBasePrefix (hierStep baseName node false) rest

theorem append_singleton_not_isEmpty (xs : List ItemNode) (n : ItemNode) :
    (xs ++ [n]).isEmpty = false := by
  cases xs <;> rfl

theorem buildBaseName_concat (base : String) (pre : List ItemNode) (n : ItemNode) :
    buildBaseName base (pre ++ [n]) = hierStep (buildBasePrefix base pre) n true := by
  induction pre generalizing base with
  | nil => simp [buildBaseName, buildBasePrefix]
  | cons x xs ih =>
      simp [buildBaseName, buildBasePrefix, append_singleton_not_isEmpty, ih]

theorem hierarchyKind_concat (pre : List ItemNode) (n : ItemNode) :
    hierarchyKind (pre ++ [n]) = n.kind := by
  simp [hierarchyKind, List.getLast?_concat]

theorem getFilename_concat_default (pre : List ItemNode) (n : ItemNode)
    (h : isDefaultSegmentKind n.kind = true) :
    getFilenameForApiItem (pre ++ [n]) =
      buildBasePrefix "" pre ++ "/" ++ itemSegment n ++ "/_index.md" := by
  have hk : ¬ hierarchyKind (pre ++ [n]) = ApiItemKind.Model := by
    rw [hierarchyKind_concat]
    intro hk
    rw [hk] at h
    simp [isDefaultSegmentKind] at h
  rw [getFilenameForApiItem, if_neg hk, buildBaseName_concat]
  obtain ⟨k, d, i⟩ := n
  cases k <;> simp_all [hierStep, isDefaultSegmentKind]

/-! ### Decorated segments -/

theorem isParameterListKind_ne_variable {k : ApiItemKind}
    (h : isParameterListKind k = true) : k ≠ ApiItemKind.Variable := by
  cases k <;> simp_all [isParameterListKind]

theorem itemSegment_param_of_gt {k : ApiItemKind} {s : String} {i : Nat}
    (hk : isParameterListKind k = true) (hi : 1 < i) :
    itemSegment ⟨k, s, i⟩ =
      getSafeFilenameForName s ++ "_" ++ natToDecimalString (i - 1) := by
  have hv := isParameterListKind_ne_variable hk
  simp [itemSegment, hk, hi, hv]

theorem itemSegment_param_of_le {k : ApiItemKind} {s : String} {i : Nat}
    (hk : isParameterListKind k = true) (hi : i ≤ 1) :
    itemSegment ⟨k, s, i⟩ = getSafeFilenameForName s := by
  have hv := isParameterListKind_ne_variable hk
  have : ¬ i > 1 := by omega
  simp [itemSegment, hk, this, hv]

theorem itemSegment_variable {s : String} {i : Nat} :
    itemSegment ⟨ApiItemKind.Variable, s, i⟩ = "var_" ++ getSafeFilenameForName s := by
  simp [itemSegment, isParameterListKind]

theorem itemSegment_plain {k : ApiItemKind} {s : String} {i : Nat}
    (hk : isParameterListKind k = false) (hv : k ≠ ApiItemKind.Variable) :
    itemSegment ⟨k, s, i⟩ = getSafeFilenameForName s := by
  simp [itemSegment, hk, hv]

theorem natToDecimalString_data (n : Nat) :
    (natToDecimalString n).data = natToDecimal n := rfl

theorem count_v_underscore_decimal (n : Nat) :
    ('_' :: natToDecimal n).count 'v' = 0 := by
  rw [List.count_eq_zero]
  intro hmem
  rcases List.mem_cons.mp hmem with h | h
  · exact absurd h (by decide)
  · exact absurd (mem_natToDecimal_isDigit n 'v' h) (by decide)

theorem var_prefix_ne_of_suffix_count {u w : String} (rest : List Char)
    (hw : w.data = u.data ++ rest) (hrest : List.count 'v' rest = 0) :
    ("var_" ++ u : String) ≠ w := by
  intro h
  have hd := congrArg String.data h
  rw [String.data_append, hw] at hd
  have hc := congrArg (List.count 'v') hd
  rw [List.count_append, List.count_append] at hc
  have h1 : List.count 'v' ("var_" : String).data = 1 := by decide
  omega

theorem itemSegment_variable_ne {s : String} {k : ApiItemKind} {i j : Nat}
    (hv : k ≠ ApiItemKind.Variable) :
    itemSegment ⟨ApiItemKind.Variable, s, i⟩ ≠ itemSegment ⟨k, s, j⟩ := by
  rw [itemSegment_variable]
  cases hpk : isParameterListKind k with
  | false =>
      rw [itemSegment_plain hpk hv]
      exact var_prefix_ne_of_suffix_count [] (by simp) rfl
  | true =>
      rcases Nat.lt_or_ge 1 j with hj | hj
      · rw [itemSegment_param_of_gt hpk hj]
        refine var_prefix_ne_of_suffix_count
          ('_' :: natToDecimal (j - 1)) ?_ (count_v_underscore_decimal (j - 1))
        simp [String.data_append, natToDecimalString_data]
      · rw [itemSegment_param_of_le hpk hj]
        exact var_prefix_ne_of_suffix_count [] (by simp) rfl

theorem itemSegment_param_ne {ka kb : ApiItemKind} {s : String} {i j : Nat}
    (hka : isParameterListKind ka = true) (hkb : isParameterListKind kb = true)
    (hi : 1 ≤ i) (hj : 1 ≤ j) (hij : i ≠ j) :
    itemSegment ⟨ka, s, i⟩ ≠ itemSegment ⟨kb, s, j⟩ := by
  intro h
  rcases Nat.lt_or_ge 1 i with hi1 | hi1 <;> rcases Nat.lt_or_ge 1 j with hj1 | hj1
  · rw [itemSegment_param_of_gt hka hi1, itemSegment_param_of_gt hkb hj1] at h
    have hd := congrArg String.data h
    simp only [String.data_append, natToDecimalString_data, List.append_assoc] at hd
    have h1 := List.append_cancel_left hd
    have h2 := List.append_cancel_left h1
    have := natToDecimal_inj _ _ h2
    omega
  · rw [itemSegment_param_of_gt hka hi1, itemSegment_param_of_le hkb hj1] at h
    have hl := congrArg (fun t : String => t.data.length) h
    simp only [String.data_append, natToDecimalString_data, List.length_append] at hl
    have hne := List.length_pos.mpr (natToDecimal_ne_nil (i - 1))
    have hu : (("_" : String).data).length = 1 := by decide
    omega
  · rw [itemSegment_param_of_le hka hi1, itemSegment_param_of_gt hkb hj1] at h
    have hl := congrArg (fun t : String => t.data.length) h
    simp only [String.data_append, natToDecimalString_data, List.length_append] at hl
    have hne := List.length_pos.mpr (natToDecimal_ne_nil (j - 1))
    have hu : (("_" : String).data).length = 1 := by decide
    omega
  · omega

theorem string_affix_cancel {p q s t : String} (h : p ++ s ++ q = p ++ t ++ q) :
    s = t := by
  have hd := congrArg String.data h
  simp only [String.data_append, List.append_assoc] at hd
  have h1 := List.append_cancel_left hd
  have h2 := List.append_cancel_right h1
  exact String.ext h2

/-- C1 (amended): the overload-index suffix and the `var_` prefix do keep
same-named siblings on distinct paths — two distinct same-named siblings
resolve to distinct filenames whenever they are function-like overloads
with distinct (1-based) overload indices, or exactly one of them is a
variable.  (Full injectivity over arbitrary addressable items fails; see
the counterexample, where a display name of one item collides with the
decorated segment of another.) -/
theorem same_name_siblings_have_distinct_filenames
    (pre : List ItemNode) (a b : ItemNode)
    (hname : a.displayName = b.displayName)
    (ha : isDefaultSegmentKind a.kind = true)
    (hb : isDefaultSegmentKind b.kind = true)
    (hcase :
      (isParameterListKind a.kind = true ∧ isParameterListKind b.kind = true ∧
        1 ≤ a.overloadIndex ∧ 1 ≤ b.overloadIndex ∧
        a.overloadIndex ≠ b.overloadIndex) ∨
      (a.kind = ApiItemKind.Variable ∧ b.kind ≠ ApiItemKind.Variable) ∨
      (b.kind = ApiItemKind.Variable ∧ a.kind ≠ ApiItemKind.Variable)) :
    getFilenameForApiItem (pre ++ [a]) ≠ getFilenameForApiItem (pre ++ [b]) := by
  rw [getFilename_concat_default pre a ha, getFilename_concat_default pre b hb]
  intro h
  have hseg : itemSegment a = itemSegment b := string_affix_cancel h
  obtain ⟨ka, sa, ia⟩ := a
  obtain ⟨kb, sb, ib⟩ := b
  simp only at hname
  subst hname
  rcases hcase with ⟨h1, h2, h3, h4, h5⟩ | ⟨h1, h2⟩ | ⟨h1, h2⟩
  · exact itemSegment_param_ne h1 h2 h3 h4 h5 hseg
  · simp only at h1 h2
    subst h1
    exact itemSegment_variable_ne h2 hseg
  · simp only at h1 h2
    subst h1
    exact itemSegment_variable_ne h2 hseg.symm

/-- C1 (counterexample): in the tree with package `@scope/widgets`, the
root entry point, and the two sibling items variable `x` and class
`var_x`, both items are distinct, both get page files written, yet
`_getFilenameForApiItem` maps them to the same path. -/
theorem distinct_items_same_filename_counterexample :
    (([⟨ApiItemKind.Model, "", 1⟩, ⟨ApiItemKind.Package, "@scope/widgets", 1⟩,
       ⟨ApiItemKind.EntryPoint, "", 1⟩, ⟨ApiItemKind.Variable, "x", 1⟩] :
        ItemHierarchy) ≠
     [⟨ApiItemKind.Model, "", 1⟩, ⟨ApiItemKind.Package, "@scope/widgets", 1⟩,
      ⟨ApiItemKind.EntryPoint, "", 1⟩, ⟨ApiItemKind.Class, "var_x", 1⟩]) ∧
    ([⟨ApiItemKind.Model, "", 1⟩, ⟨ApiItemKind.Package, "@scope/widgets", 1⟩,
      ⟨ApiItemKind.EntryPoint, "", 1⟩, ⟨ApiItemKind.Variable, "x", 1⟩] :
        ItemHierarchy).dropLast =
      ([⟨ApiItemKind.Model, "", 1⟩, ⟨ApiItemKind.Package, "@scope/widgets", 1⟩,
        ⟨ApiItemKind.EntryPoint, "", 1⟩, ⟨ApiItemKind.Class, "var_x", 1⟩] :
        ItemHierarchy).dropLast ∧
    writesPageFile [⟨ApiItemKind.Model, "", 1⟩,
      ⟨ApiItemKind.Package, "@scope/widgets", 1⟩,
      ⟨ApiItemKind.EntryPoint, "", 1⟩, ⟨ApiItemKind.Variable, "x", 1⟩] = true ∧
    writesPageFile [⟨ApiItemKind.Model, "", 1⟩,
      ⟨ApiItemKind.Package, "@scope/widgets", 1⟩,
      ⟨ApiItemKind.EntryPoint, "", 1⟩, ⟨ApiItemKind.Class, "var_x", 1⟩] = true ∧
    getFilenameForApiItem [⟨ApiItemKind.Model, "", 1⟩,
      ⟨ApiItemKind.Package, "@scope/widgets", 1⟩,
      ⟨ApiItemKind.EntryPoint, "", 1⟩, ⟨ApiItemKind.Variable, "x", 1⟩] =
    getFilenameForApiItem [⟨ApiItemKind.Model, "", 1⟩,
      ⟨ApiItemKind.Package, "@scope/widgets", 1⟩,
      ⟨ApiItemKind.EntryPoint, "", 1⟩, ⟨ApiItemKind.Class, "var_x", 1⟩] := by
  refine ⟨by decide, by decide, by decide, by decide, by decide⟩

/-- C1 witness: the amended theorem applied to two same-named constructor
overloads of `Widget`. -/
theorem same_name_siblings_distinct_filenames_witness :
    getFilenameForApiItem
      [⟨ApiItemKind.Model, "", 1⟩, ⟨ApiItemKind.Package, "@scope/widgets", 1⟩,
       ⟨ApiItemKind.EntryPoint, "", 1⟩, ⟨ApiItemKind.Class, "Widget", 1⟩,
       ⟨ApiItemKind.Constructor, "constructor", 1⟩] ≠
    getFilenameForApiItem
      [⟨ApiItemKind.Model, "", 1⟩, ⟨ApiItemKind.Package, "@scope/widgets", 1⟩,
       ⟨ApiItemKind.EntryPoint, "", 1⟩, ⟨ApiItemKind.Class, "Widget", 1⟩,
       ⟨ApiItemKind.Constructor, "constructor", 2⟩] :=
  same_name_siblings_have_distinct_filenames
    [⟨ApiItemKind.Model, "", 1⟩, ⟨ApiItemKind.Package, "@scope/widgets", 1⟩,
     ⟨ApiItemKind.EntryPoint, "", 1⟩, ⟨ApiItemKind.Class, "Widget", 1⟩]
    ⟨ApiItemKind.Constructor, "constructor", 1⟩
    ⟨ApiItemKind.Constructor, "constructor", 2⟩
    rfl rfl rfl (Or.inl ⟨rfl, rfl, by decide, by decide, by decide⟩)

/-- C2 (counterexample): in the package `@scope/widgets` with the empty
entry point, class `Widget`'s page is written to
`widgets/_root/Widget/_index.md` — the hierarchy walk always contributes
a `_root` segment for the empty entry point — and not to the claimed
`widgets/Widget/_index.md`. -/
theorem widget_filename_counterexample :
    getFilenameForApiItem [⟨ApiItemKind.Model, "", 1⟩,
      ⟨ApiItemKind.Package, "@scope/widgets", 1⟩,
      ⟨ApiItemKind.EntryPoint, "", 1⟩, ⟨ApiItemKind.Class, "Widget", 1⟩] =
      "widgets/_root/Widget/_index.md" ∧
    getFilenameForApiItem [⟨ApiItemKind.Model, "", 1⟩,
      ⟨ApiItemKind.Package, "@scope/widgets", 1⟩,
      ⟨ApiItemKind.EntryPoint, "", 1⟩, ⟨ApiItemKind.Class, "Widget", 1⟩] ≠
      "widgets/Widget/_index.md" := by
  refine ⟨by decide, by decide⟩

/-- C2 (amended): for parameter-list kinds with overload index above 1
the path segment carries the suffix `_<index-1>`, and variables carry the
`var_` prefix; for `@scope/widgets` with the empty entry point and class
`Widget` with two constructors the written pages are
`widgets/_root/Widget/_index.md`,
`widgets/_root/Widget/constructor/_index.md` and
`widgets/_root/Widget/constructor_1/_index.md`. -/
theorem overload_suffix_and_variable_decoration :
    (∀ (k : ApiItemKind) (s : String) (i : Nat),
      isParameterListKind k = true → 1 < i →
        itemSegment ⟨k, s, i⟩ =
          getSafeFilenameForName s ++ "_" ++ natToDecimalString (i - 1)) ∧
    (∀ (s : String) (i : Nat),
      itemSegment ⟨ApiItemKind.Variable, s, i⟩ =
        "var_" ++ getSafeFilenameForName s) ∧
    getFilenameForApiItem [⟨ApiItemKind.Model, "", 1⟩,
      ⟨ApiItemKind.Package, "@scope/widgets", 1⟩,
      ⟨ApiItemKind.EntryPoint, "", 1⟩, ⟨ApiItemKind.Class, "Widget", 1⟩] =
      "widgets/_root/Widget/_index.md" ∧
    getFilenameForApiItem [⟨ApiItemKind.Model, "", 1⟩,
      ⟨ApiItemKind.Package, "@scope/widgets", 1⟩,
      ⟨ApiItemKind.EntryPoint, "", 1⟩, ⟨ApiItemKind.Class, "Widget", 1⟩,
      ⟨ApiItemKind.Constructor, "constructor", 1⟩] =
      "widgets/_root/Widget/constructor/_index.md" ∧
    getFilenameForApiItem [⟨ApiItemKind.Model, "", 1⟩,
      ⟨ApiItemKind.Package, "@scope/widgets", 1⟩,
      ⟨ApiItemKind.EntryPoint, "", 1⟩, ⟨ApiItemKind.Class, "Widget", 1⟩,
      ⟨ApiItemKind.Constructor, "constructor", 2⟩] =
      "widgets/_root/Widget/constructor_1/_index.md" := by
  refine ⟨fun k s i hk hi => itemSegment_param_of_gt hk hi,
    fun s i => itemSegment_variable, by decide, by decide, by decide⟩

/-- C2 witness: the suffix and prefix clauses of the amended theorem at a
concrete overloaded method and a concrete variable. -/
theorem overload_suffix_and_variable_decoration_witness :
    itemSegment ⟨ApiItemKind.Method, "draw", 3⟩ = "draw_2" ∧
    itemSegment ⟨ApiItemKind.Variable, "x", 1⟩ = "var_x" := by
  constructor
  · rw [overload_suffix_and_variable_decoration.1 ApiItemKind.Method "draw" 3
      (by decide) (by decide)]
    decide
  · rw [overload_suffix_and_variable_decoration.2.1 "x" 1]
    decide

/-- C3: for an entry point under a package, the hierarchy walk
contributes the segment `_root` when the import sub-path is empty, and
otherwise the filesystem-safe form of the import sub-path appended to the
package's filesystem-safe unscoped-name segment, so the entry point's
page lands at `<unscoped-package-name>/<import-subpath>/_index.md` (for
any well-formed import sub-path, i.e. one not starting with `@`). -/
theorem entry_point_segment (m p e : ItemNode)
    (hm : m.kind = ApiItemKind.Model) (hp : p.kind = ApiItemKind.Package)
    (he : e.kind = ApiItemKind.EntryPoint) :
    (e.displayName = "" →
      getFilenameForApiItem [m, p, e] =
        getSafeFilenameForName (getUnscopedName p.displayName) ++ "/_root"
          ++ "/_index.md") ∧
    (∀ c cs, e.displayName.data = c :: cs → c ≠ '@' →
      getFilenameForApiItem [m, p, e] =
        getSafeFilenameForName (getUnscopedName p.displayName) ++ "/"
          ++ getSafeFilenameForName e.displayName ++ "/_index.md") := by
  obtain ⟨km, dm, im⟩ := m
  obtain ⟨kp, dp, ip⟩ := p
  obtain ⟨ke, de, ie⟩ := e
  simp only at hm hp he
  subst hm hp he
  constructor
  · intro h0
    simp only at h0
    subst h0
    simp [getFilenameForApiItem, hierarchyKind, buildBaseName, hierStep]
  · intro c cs hde hc
    simp only at hde
    have hlen : de.length > 0 := by
      have h' : de.length = de.data.length := rfl
      rw [h', hde]
      simp
    have hun : getUnscopedName de = de := by
      unfold getUnscopedName
      rw [hde]
      split
      · next heq =>
          simp only [List.cons.injEq] at heq
          exact absurd heq.1 hc
      · rfl
    simp [getFilenameForApiItem, hierarchyKind, buildBaseName, hierStep, hun, hlen]

/-- C3 witness: the entry-point segment rule at the root entry point and
at a named entry point of `@scope/widgets`. -/
theorem entry_point_segment_witness :
    getFilenameForApiItem [⟨ApiItemKind.Model, "", 1⟩,
      ⟨ApiItemKind.Package, "@scope/widgets", 1⟩,
      ⟨ApiItemKind.EntryPoint, "", 1⟩] = "widgets/_root/_index.md" ∧
    getFilenameForApiItem [⟨ApiItemKind.Model, "", 1⟩,
      ⟨ApiItemKind.Package, "@scope/widgets", 1⟩,
      ⟨ApiItemKind.EntryPoint, "server", 1⟩] = "widgets/server/_index.md" := by
  constructor
  · have h := (entry_point_segment ⟨ApiItemKind.Model, "", 1⟩
      ⟨ApiItemKind.Package, "@scope/widgets", 1⟩ ⟨ApiItemKind.EntryPoint, "", 1⟩
      rfl rfl rfl).1 rfl
    rw [h]
    decide
  · have h := (entry_point_segment ⟨ApiItemKind.Model, "", 1⟩
      ⟨ApiItemKind.Package, "@scope/widgets", 1⟩
      ⟨ApiItemKind.EntryPoint, "server", 1⟩
      rfl rfl rfl).2 's' ['e', 'r', 'v', 'e', 'r'] (by decide) (by decide)
    rw [h]
    decide

/-! ### Document node model

The document nodes produced by the page-content builder: the general
tsdoc kinds it instantiates (`DocPlainText`, `DocParagraph`,
`DocCodeSpan`, `DocFencedCode`, `DocLinkTag`, `DocSection` contents) and
the six custom kinds of `CustomDocNodeKind` (`DocEmphasisSpan`,
`DocHeading`, `DocNoteBox`, `DocTable`, `DocTableRow`, `DocTableCell`).
A table cell holds the node list of its content section. -/
inductive DocNode where
  | plainText (text : String)
  | softBreak
  | codeSpan (code : String)
  | fencedCode (language : String) (code : String)
  | linkTag (linkText : String) (urlDestination : String)
  | paragraph (nodes : List DocNode)
  | emphasisSpan (bold : Bool) (italic : Bool) (nodes : List DocNode)
  | heading (title : String)
  | noteBox (nodes : List DocNode)
  | tableCell (nodes : List DocNode)
  | tableRow (cells : List DocNode)
  | table (headerTitles : List String) (rows : List DocNode)
deriving Repr

/-- `DocSection.appendNodesInParagraph` from `@microsoft/tsdoc`: append
the given nodes into the section's trailing paragraph, creating a new
paragraph only when the section does not already end with one. -/
def appendNodesInParagraph (sec : List DocNode) (nodes : List DocNode) : List DocNode :=
  match sec.getLast? with
  | some (DocNode.paragraph children) =>
      sec.dropLast ++ [DocNode.paragraph (children ++ nodes)]
  | _ => sec ++ [DocNode.paragraph nodes]

/-- `HugoDocumenter._appendAndMergeSection`: splice a section's nodes
into the output, merging the first paragraph into the output's trailing
paragraph. -/
def appendAndMergeSection (sec : List DocNode) (content : List DocNode) : List DocNode :=
  match content with
  | DocNode.paragraph children :: rest => appendNodesInParagraph sec children ++ rest
  | other => sec ++ other

/-! ### Excerpts and hyperlink resolution -/

/-- `ExcerptTokenKind` from `@microsoft/api-extractor-model`. -/
inductive ExcerptTokenKind where
  | Content
  | Reference
deriving DecidableEq, Repr

/-- An excerpt token: literal text or a reference; a reference may carry
a canonical declaration reference (embedded as an opaque key). -/
structure ExcerptToken where
  kind : ExcerptTokenKind
  text : String
  canonicalReference : Option Nat
deriving DecidableEq, Repr

/-- An excerpt is its (spanned) token sequence. -/
abbrev Excerpt := List ExcerptToken

/-- `Excerpt.text`: the joined text of the excerpt's tokens. -/
def excerptTextOf (e : Excerpt) : String :=
  String.join (e.map (fun t => t.text))

/-- The model's `resolveDeclarationReference` query: a canonical
reference resolves to the hierarchy of an item present in the model, or
to nothing. -/
abbrev Resolver := Nat → Option ItemHierarchy

/-- Collapse every run of CR/LF characters to a single space — the
semantics of `token.text.replace(/[\r\n]+/g, ' ')`. -/
def collapseNewlinesAux : Bool → List Char → List Char
  | _, [] => []
  | prevNL, c :: cs =>
      if c = '\r' ∨ c = '\n' then
        (if prevNL then [] else [' ']) ++ collapseNewlinesAux true cs
      else c :: collapseNewlinesAux false cs

def collapseNewlines (s : String) : String :=
  String.mk (collapseNewlinesAux false s.data)

/-- `HugoDocumenter._appendExcerptTokenWithHyperlinks`: a reference token
whose canonical reference resolves becomes a `DocLinkTag` whose link text
is the token's newline-collapsed text and whose destination is the
resolved item's link filename; any other token degrades to plain text. -/
def appendExcerptTokenWithHyperlinks (resolve : Resolver) (token : ExcerptToken) :
    DocNode :=
  let unwrappedTokenText := collapseNewlines token.text
  match token.kind, token.canonicalReference with
  | ExcerptTokenKind.Reference, some ref =>
      match resolve ref with
      | some resolvedItem =>
          DocNode.linkTag unwrappedTokenText (getLinkFilenameForApiItem resolvedItem)
      | none => DocNode.plainText unwrappedTokenText
  | _, _ => DocNode.plainText unwrappedTokenText

/-- `HugoDocumenter._appendExcerptWithHyperlinks`. -/
def appendExcerptWithHyperlinks (resolve : Resolver) (e : Excerpt) : List DocNode :=
  e.map (appendExcerptTokenWithHyperlinks resolve)

/-- Emptiness of the JavaScript string `excerpt.text.trim()` (the falsy
check `!excerpt.text.trim()` in `_createParagraphForTypeExcerpt`). -/
def trimIsEmpty (s : String) : Bool :=
  s.data.all (fun c => c.isWhitespace)

/-- `HugoDocumenter._createParagraphForTypeExcerpt`. -/
def createParagraphForTypeExcerpt (resolve : Resolver) (e : Excerpt) : DocNode :=
  if trimIsEmpty (excerptTextOf e) then
    DocNode.paragraph [DocNode.plainText "(not declared)"]
  else
    DocNode.paragraph (appendExcerptWithHyperlinks resolve e)

/-! ### Items as consumed by the page-content builder -/

/-- `ReleaseTag` from `@microsoft/api-extractor-model`. -/
inductive ReleaseTag where
  | NotSpecified
  | Internal
  | Alpha
  | Beta
  | Public
deriving DecidableEq, Repr

/-- A tsdoc custom block, carrying its upper-cased tag name (the source
compares `block.blockTag.tagNameWithUpperCase` against the standard tags
`@DECORATOR`, `@EXAMPLE` and `@THROWS`). -/
structure DocBlock where
  tagNameWithUpperCase : String
  content : List DocNode
deriving Repr

/-- The parts of a parsed tsdoc comment the builder reads. -/
structure DocCommentData where
  summarySection : List DocNode
  remarksBlock : Option (List DocNode)
  deprecatedBlock : Option (List DocNode)
  returnsBlock : Option (List DocNode)
  customBlocks : List DocBlock
deriving Repr

/-- One parameter of a parameter-list item. -/
structure ApiParameter where
  name : String
  isOptional : Bool
  tsdocParamBlock : Option (List DocNode)
  parameterTypeExcerpt : Excerpt
deriving Repr

/-- A member item as read when building a table row.  `conciseSignature`
stands for the output of `Utilities.getConciseSignature` (repository code
outside the provided sources; per spec section 4.3 the row's name text),
supplied as input data.  The modifier and optionality flags each embed
"the corresponding mixin is present and the flag is set". -/
structure MemberItem where
  kind : ApiItemKind
  hierarchy : ItemHierarchy
  conciseSignature : String
  isOptional : Bool
  releaseTag : Option ReleaseTag
  summarySection : Option (List DocNode)
  isEventProperty : Bool
  isAbstract : Bool
  isProtected : Bool
  isStatic : Bool
  isReadonly : Bool
  propertyTypeExcerpt : Excerpt
  initializerExcerpt : Option String
deriving Repr

/-- `IFindApiItemsResult` of `findMembersWithInheritance`. -/
structure FindApiItemsResult where
  items : List MemberItem
  maybeIncompleteResult : Bool
  messages : List String
deriving Repr

/-- An entry point of a package as read by
`_writePackageOrNamespaceTables`. -/
structure EntryPointItem where
  importPath : String
  hierarchy : ItemHierarchy
  members : List MemberItem
deriving Repr

/-- `NewlineKind` from `@rushstack/node-core-library`. -/
inductive NewlineKind where
  | CrLf
  | Lf
  | OsDefault
deriving DecidableEq, Repr

/-- The parts of `DocumenterConfig` the documenter reads. -/
structure DocumenterConfig where
  showInheritedMembers : Bool
  newlineKind : NewlineKind
deriving Repr

/-- An API item as consumed by `_writeApiItemPage`: the fields of the
`api-extractor-model` item that the page builder reads.  `excerpt` is the
declaration excerpt (`apiItem.excerpt`), `excerptTokens` the full token
list (`apiItem.excerptTokens`, used for type-alias references), and
`excerptWithModifiers` the text of `getExcerptWithModifiers()`. -/
structure PageItem where
  kind : ApiItemKind
  displayName : String
  scopedName : String
  name : String
  hierarchy : ItemHierarchy
  releaseTag : Option ReleaseTag
  tsdocComment : Option DocCommentData
  excerpt : Excerpt
  excerptTokens : Excerpt
  excerptWithModifiers : String
  extendsType : Option Excerpt
  implementsTypes : List Excerpt
  interfaceExtendsTypes : List Excerpt
  members : List MemberItem
  entryPoints : List EntryPointItem
  findResult : FindApiItemsResult
  parameters : List ApiParameter
  returnTypeExcerpt : Option Excerpt
deriving Repr

/-- The display name of an item's parent (used for the
"(Inherited from …)" suffix and the entry-point title). -/
def parentDisplayName (hierarchy : ItemHierarchy) : String :=
  match hierarchy.dropLast.getLast? with
  | some node => node.displayName
  | none => ""

/-! ### Table cells -/

/-- `HugoDocumenter._createTitleCell`. -/
def createTitleCell (m : MemberItem) : DocNode :=
  let linkText := m.conciseSignature ++ (if m.isOptional then "?" else "")
  DocNode.tableCell [DocNode.paragraph
    [DocNode.linkTag linkText (getLinkFilenameForApiItem m.hierarchy)]]

/-- `HugoDocumenter._createDescriptionCell`. -/
def createDescriptionCell (m : MemberItem) (isInherited : Bool := false) : DocNode :=
  let sec : List DocNode := []
  let sec :=
    match m.releaseTag with
    | some ReleaseTag.Alpha =>
        appendNodesInParagraph sec
          [DocNode.emphasisSpan true true [DocNode.plainText "(ALPHA)"],
           DocNode.plainText " "]
    | some ReleaseTag.Beta =>
        appendNodesInParagraph sec
          [DocNode.emphasisSpan true true [DocNode.plainText "(BETA)"],
           DocNode.plainText " "]
    | _ => sec
  let sec :=
    if m.isOptional then
      appendNodesInParagraph sec
        [DocNode.emphasisSpan false true [DocNode.plainText "(Optional)"],
         DocNode.plainText " "]
    else sec
  let sec :=
    match m.summarySection with
    | some nodes => appendAndMergeSection sec nodes
    | none => sec
  let sec :=
    if isInherited ∧ m.hierarchy.dropLast ≠ [] then
      sec ++ [DocNode.paragraph
        [DocNode.plainText "(Inherited from ",
         DocNode.linkTag (parentDisplayName m.hierarchy)
           (getLinkFilenameForApiItem m.hierarchy.dropLast),
         DocNode.plainText ")"]]
    else sec
  DocNode.tableCell sec

/-- `HugoDocumenter._createModifiersCell`. -/
def createModifiersCell (m : MemberItem) : DocNode :=
  DocNode.tableCell
    ((if m.isProtected then
        [DocNode.paragraph [DocNode.codeSpan "protected"]] else []) ++
     (if m.isStatic then
        [DocNode.paragraph [DocNode.codeSpan "static"]] else []) ++
     (if m.isAbstract then
        [DocNode.paragraph [DocNode.codeSpan "abstract"]] else []) ++
     (if m.isReadonly then
        [DocNode.paragraph [DocNode.codeSpan "readonly"]] else []))

/-- The kinds that are `ApiPropertyItem` instances. -/
def isPropertyItemKind : ApiItemKind → Bool
  | .Property => true
  | .PropertySignature => true
  | _ => false

/-- `HugoDocumenter._createPropertyTypeCell`. -/
def createPropertyTypeCell (resolve : Resolver) (m : MemberItem) : DocNode :=
  DocNode.tableCell
    (if isPropertyItemKind m.kind then
      [createParagraphForTypeExcerpt resolve m.propertyTypeExcerpt]
     else [])

/-- `HugoDocumenter._createInitializerCell`. -/
def createInitializerCell (m : MemberItem) : DocNode :=
  DocNode.tableCell
    (match m.initializerExcerpt with
     | some text => appendNodesInParagraph [] [DocNode.codeSpan text]
     | none => [])

/-! ### Section writers -/

/-- Comma-joined cross-linked excerpts (the `needsComma` loops of
`_writeHeritageTypes`). -/
def commaJoinedExcerpts (resolve : Resolver) : List Excerpt → List DocNode
  | [] => []
  | e :: es =>
      appendExcerptWithHyperlinks resolve e ++
        es.flatMap (fun e' =>
          DocNode.plainText ", " :: appendExcerptWithHyperlinks resolve e')

/-- The filter of `_writeHeritageTypes` for a type alias: the excerpt
tokens that are references whose canonical reference resolves to an item
present in the model. -/
def aliasResolvedRefs (resolve : Resolver) (tokens : Excerpt) : Excerpt :=
  tokens.filter (fun t =>
    t.kind == ExcerptTokenKind.Reference &&
      match t.canonicalReference with
      | some ref => (resolve ref).isSome
      | none => false)

/-- The de-duplicating loop over the resolved reference tokens: skip a
token whose text was already visited, otherwise emit a comma separator
(after the first) and the token's hyperlinked node. -/
def referencesLoop (resolve : Resolver) (visited : List String) (needsComma : Bool) :
    Excerpt → List DocNode
  | [] => []
  | r :: rs =>
      if r.text ∈ visited then referencesLoop resolve visited needsComma rs
      else
        (if needsComma then [DocNode.plainText ", "] else []) ++
          (appendExcerptTokenWithHyperlinks resolve r ::
            referencesLoop resolve (r.text :: visited) true rs)

/-- `HugoDocumenter._writeHeritageTypes`. -/
def writeHeritageTypes (resolve : Resolver) (item : PageItem) : List DocNode :=
  (if item.kind = ApiItemKind.Class then
    (match item.extendsType with
     | some ex =>
         [DocNode.paragraph
           (DocNode.emphasisSpan true false [DocNode.plainText "Extends: "] ::
             appendExcerptWithHyperlinks resolve ex)]
     | none => []) ++
    (if item.implementsTypes.length > 0 then
      [DocNode.paragraph
        (DocNode.emphasisSpan true false [DocNode.plainText "Implements: "] ::
          commaJoinedExcerpts resolve item.implementsTypes)]
     else [])
   else []) ++
  (if item.kind = ApiItemKind.Interface then
    (if item.interfaceExtendsTypes.length > 0 then
      [DocNode.paragraph
        (DocNode.emphasisSpan true false [DocNode.plainText "Extends: "] ::
          commaJoinedExcerpts resolve item.interfaceExtendsTypes)]
     else [])
   else []) ++
  (if item.kind = ApiItemKind.TypeAlias then
    (let refs := aliasResolvedRefs resolve item.excerptTokens
     if refs.length > 0 then
      [DocNode.paragraph
        (DocNode.emphasisSpan true false [DocNode.plainText "References: "] ::
          referencesLoop resolve [] false refs)]
     else [])
   else [])

/-- The numbered example headings of `_writeRemarksSection`. -/
def exampleBlocksNodes (total : Nat) (exampleNumber : Nat) :
    List DocBlock → List DocNode
  | [] => []
  | b :: bs =>
      (DocNode.heading
        (if total > 1 then "Example " ++ natToDecimalString exampleNumber
         else "Example")) ::
        (b.content ++ exampleBlocksNodes total (exampleNumber + 1) bs)

/-- `HugoDocumenter._writeRemarksSection`. -/
def writeRemarksSection (item : PageItem) : List DocNode :=
  if isDocumentedItemKind item.kind then
    match item.tsdocComment with
    | none => []
    | some c =>
        (match c.remarksBlock with
         | some content => DocNode.heading "Remarks" :: content
         | none => []) ++
        (let exampleBlocks :=
          c.customBlocks.filter (fun b => b.tagNameWithUpperCase = "@EXAMPLE")
         exampleBlocksNodes exampleBlocks.length 1 exampleBlocks)
  else []

/-- `HugoDocumenter._writeThrowsSection`. -/
def writeThrowsSection (item : PageItem) : List DocNode :=
  if isDocumentedItemKind item.kind then
    match item.tsdocComment with
    | none => []
    | some c =>
        let throwsBlocks :=
          c.customBlocks.filter (fun b => b.tagNameWithUpperCase = "@THROWS")
        if throwsBlocks.length > 0 then
          DocNode.heading "Exceptions" :: throwsBlocks.flatMap (fun b => b.content)
        else []
  else []

/-! ### Table writers -/

/-- Emit a heading/table pair when the table has at least one row — the
shape of every `if table.rows.length > 0` guard in the source. -/
def tableIfNonEmpty (title : String) (headerTitles : List String)
    (rows : List DocNode) : List DocNode :=
  if rows.length > 0 then
    [DocNode.heading title, DocNode.table headerTitles rows]
  else []

/-- `HugoDocumenter._writeModelTable`: one row per package member. -/
def writeModelTable (_resolve : Resolver) (item : PageItem) : List DocNode :=
  let rows :=
    (item.members.filter (fun m => m.kind = ApiItemKind.Package)).map (fun m =>
      DocNode.tableRow [createTitleCell m, createDescriptionCell m])
  tableIfNonEmpty "Packages" ["Package", "Description"] rows

/-- `HugoDocumenter._writePackageOrNamespaceTables`. -/
def writePackageOrNamespaceTables (_resolve : Resolver) (item : PageItem) :
    List DocNode :=
  let entrypointsPart :=
    if item.kind = ApiItemKind.Package then
      let epRows := item.entryPoints.map (fun ep =>
        DocNode.tableRow [DocNode.tableCell [DocNode.paragraph
          [DocNode.linkTag
            (item.name ++
              (if ep.importPath = "" then "" else "/" ++ ep.importPath))
            (getLinkFilenameForApiItem ep.hierarchy)]]])
      -- the table is only emitted when there is more than the root entry point
      if epRows.length > 1 then
        [DocNode.heading "Entrypoints", DocNode.table ["Path"] epRows]
      else []
    else []
  let apiMembers :=
    if item.kind = ApiItemKind.Package then
      item.entryPoints.flatMap (fun ep => ep.members)
    else item.members
  let row := fun (m : MemberItem) =>
    DocNode.tableRow [createTitleCell m, createDescriptionCell m]
  let classRows :=
    (apiMembers.filter (fun m => m.kind = ApiItemKind.Class ∧ m.isAbstract = false)).map row
  let abstractClassRows :=
    (apiMembers.filter (fun m => m.kind = ApiItemKind.Class ∧ m.isAbstract = true)).map row
  let enumRows :=
    (apiMembers.filter (fun m => m.kind = ApiItemKind.Enum)).map row
  let interfaceRows :=
    (apiMembers.filter (fun m => m.kind = ApiItemKind.Interface)).map row
  let namespaceRows :=
    (apiMembers.filter (fun m => m.kind = ApiItemKind.Namespace)).map row
  let functionRows :=
    (apiMembers.filter (fun m => m.kind = ApiItemKind.Function)).map row
  let typeAliasRows :=
    (apiMembers.filter (fun m => m.kind = ApiItemKind.TypeAlias)).map row
  let variableRows :=
    (apiMembers.filter (fun m => m.kind = ApiItemKind.Variable)).map row
  entrypointsPart ++
  tableIfNonEmpty "Classes" ["Class", "Description"] classRows ++
  tableIfNonEmpty "Abstract Classes" ["Abstract Class", "Description"] abstractClassRows ++
  tableIfNonEmpty "Enumerations" ["Enumeration", "Description"] enumRows ++
  tableIfNonEmpty "Functions" ["Function", "Description"] functionRows ++
  tableIfNonEmpty "Interfaces" ["Interface", "Description"] interfaceRows ++
  tableIfNonEmpty "Namespaces" ["Namespace", "Description"] namespaceRows ++
  tableIfNonEmpty "Variables" ["Variable", "Description"] variableRows ++
  tableIfNonEmpty "Type Aliases" ["Type Alias", "Description"] typeAliasRows

/-- The advisory paragraph inserted when `findMembersWithInheritance`
reports a possibly-incomplete result. -/
def incompleteWarningParagraph : DocNode :=
  DocNode.paragraph
    [DocNode.emphasisSpan false true
      [DocNode.plainText
        "(Some inherited members may not be shown because they are not represented in the documentation.)"]]

/-- The log-line prefix of the inheritance diagnostics. -/
def inheritanceDiagnosticLog (message : String) : String :=
  "Diagnostic message for findMembersWithInheritance: " ++ message

/-- `HugoDocumenter._getMembersAndWriteIncompleteWarning`, returning the
nodes appended to the output, the emitted log lines, and the member list
used to build the tables. -/
def getMembersAndWriteIncompleteWarning (cfg : Option DocumenterConfig)
    (item : PageItem) : List DocNode × List String × List MemberItem :=
  let showInheritedMembers :=
    match cfg with
    | some c => c.showInheritedMembers
    | none => false
  if showInheritedMembers = false then
    ([], [], item.members)
  else
    ((if item.findResult.maybeIncompleteResult then
        [incompleteWarningParagraph]
      else []),
     item.findResult.messages.map inheritanceDiagnosticLog,
     item.findResult.items)

/-- Whether a table member is inherited: its parent differs from the page
item (`apiMember.parent !== apiClass`). -/
def isInheritedMember (item : PageItem) (m : MemberItem) : Bool :=
  m.hierarchy.dropLast ≠ item.hierarchy

/-- The member tables of `_writeClassTables`, built from the member list
returned by `_getMembersAndWriteIncompleteWarning`. -/
def classMemberTableNodes (resolve : Resolver) (item : PageItem)
    (apiMembers : List MemberItem) : List DocNode :=
  let row3 := fun (m : MemberItem) =>
    DocNode.tableRow [createTitleCell m, createModifiersCell m,
      createDescriptionCell m (isInheritedMember item m)]
  let row4 := fun (m : MemberItem) =>
    DocNode.tableRow [createTitleCell m, createModifiersCell m,
      createPropertyTypeCell resolve m,
      createDescriptionCell m (isInheritedMember item m)]
  let constructorRows :=
    (apiMembers.filter (fun m => m.kind = ApiItemKind.Constructor)).map row3
  let methodRows :=
    (apiMembers.filter (fun m => m.kind = ApiItemKind.Method)).map row3
  let eventRows :=
    (apiMembers.filter (fun m =>
      m.kind = ApiItemKind.Property ∧ m.isEventProperty = true)).map row4
  let propertyRows :=
    (apiMembers.filter (fun m =>
      m.kind = ApiItemKind.Property ∧ m.isEventProperty = false)).map row4
  tableIfNonEmpty "Events" ["Property", "Modifiers", "Type", "Description"] eventRows ++
  tableIfNonEmpty "Constructors" ["Constructor", "Modifiers", "Description"] constructorRows ++
  tableIfNonEmpty "Properties" ["Property", "Modifiers", "Type", "Description"] propertyRows ++
  tableIfNonEmpty "Methods" ["Method", "Modifiers", "Description"] methodRows

/-- `HugoDocumenter._writeClassTables` (nodes and log lines). -/
def writeClassTables (resolve : Resolver) (cfg : Option DocumenterConfig)
    (item : PageItem) : List DocNode × List String :=
  let found := getMembersAndWriteIncompleteWarning cfg item
  (found.1 ++ classMemberTableNodes resolve item found.2.2, found.2.1)

/-- The member tables of `_writeInterfaceTables`. -/
def interfaceMemberTableNodes (resolve : Resolver) (item : PageItem)
    (apiMembers : List MemberItem) : List DocNode :=
  let row2 := fun (m : MemberItem) =>
    DocNode.tableRow [createTitleCell m,
      createDescriptionCell m (isInheritedMember item m)]
  let row4 := fun (m : MemberItem) =>
    DocNode.tableRow [createTitleCell m, createModifiersCell m,
      createPropertyTypeCell resolve m,
      createDescriptionCell m (isInheritedMember item m)]
  let methodRows :=
    (apiMembers.filter (fun m =>
      m.kind = ApiItemKind.ConstructSignature ∨
        m.kind = ApiItemKind.MethodSignature)).map row2
  let eventRows :=
    (apiMembers.filter (fun m =>
      m.kind = ApiItemKind.PropertySignature ∧ m.isEventProperty = true)).map row4
  let propertyRows :=
    (apiMembers.filter (fun m =>
      m.kind = ApiItemKind.PropertySignature ∧ m.isEventProperty = false)).map row4
  tableIfNonEmpty "Events" ["Property", "Modifiers", "Type", "Description"] eventRows ++
  tableIfNonEmpty "Properties" ["Property", "Modifiers", "Type", "Description"] propertyRows ++
  tableIfNonEmpty "Methods" ["Method", "Description"] methodRows

/-- `HugoDocumenter._writeInterfaceTables` (nodes and log lines). -/
def writeInterfaceTables (resolve : Resolver) (cfg : Option DocumenterConfig)
    (item : PageItem) : List DocNode × List String :=
  let found := getMembersAndWriteIncompleteWarning cfg item
  (found.1 ++ interfaceMemberTableNodes resolve item found.2.2, found.2.1)

/-- `HugoDocumenter._writeEnumTables`. -/
def writeEnumTables (item : PageItem) : List DocNode :=
  let rows := item.members.map (fun m =>
    DocNode.tableRow
      [DocNode.tableCell [DocNode.paragraph [DocNode.plainText m.conciseSignature]],
       createInitializerCell m,
       createDescriptionCell m])
  tableIfNonEmpty "Enumeration Members" ["Member", "Value", "Description"] rows

/-- The comment's `@returns` block content spliced into the output by
`_writeParameterTables` (for documented items with a comment carrying a
returns block). -/
def returnsBlockNodes (item : PageItem) : List DocNode :=
  if isDocumentedItemKind item.kind then
    match item.tsdocComment with
    | some c =>
        (match c.returnsBlock with
         | some content => content
         | none => [])
    | none => []
  else []

/-- `HugoDocumenter._writeParameterTables`. -/
def writeParameterTables (resolve : Resolver) (item : PageItem) : List DocNode :=
  let paramRows := item.parameters.map (fun p =>
    let parameterDescription : List DocNode := []
    let parameterDescription :=
      if p.isOptional then
        appendNodesInParagraph parameterDescription
          [DocNode.emphasisSpan false true [DocNode.plainText "(Optional)"],
           DocNode.plainText " "]
      else parameterDescription
    let parameterDescription :=
      match p.tsdocParamBlock with
      | some content => appendAndMergeSection parameterDescription content
      | none => parameterDescription
    DocNode.tableRow
      [DocNode.tableCell [DocNode.paragraph [DocNode.plainText p.name]],
       DocNode.tableCell [createParagraphForTypeExcerpt resolve p.parameterTypeExcerpt],
       DocNode.tableCell parameterDescription])
  tableIfNonEmpty "Parameters" ["Parameter", "Type", "Description"] paramRows ++
  (match item.returnTypeExcerpt with
   | some returnExcerpt =>
       [DocNode.paragraph [],
        DocNode.paragraph [DocNode.emphasisSpan true false [DocNode.plainText "Returns:"]],
        createParagraphForTypeExcerpt resolve returnExcerpt] ++
       returnsBlockNodes item
   | none => [])

/-! ### The page writer -/

/-- The kind names interpolated into the unsupported-kind error
messages. -/
def kindName : ApiItemKind → String
  | .Model => "Model"
  | .Package => "Package"
  | .EntryPoint => "EntryPoint"
  | .Class => "Class"
  | .Interface => "Interface"
  | .Enum => "Enum"
  | .EnumMember => "EnumMember"
  | .Namespace => "Namespace"
  | .Function => "Function"
  | .Variable => "Variable"
  | .TypeAlias => "TypeAlias"
  | .Constructor => "Constructor"
  | .ConstructSignature => "ConstructSignature"
  | .Method => "Method"
  | .MethodSignature => "MethodSignature"
  | .Property => "Property"
  | .PropertySignature => "PropertySignature"
  | .CallSignature => "CallSignature"
  | .IndexSignature => "IndexSignature"

/-- A built page: the front-matter title, the body node list, and the
console log lines emitted while building it.  (The model page
additionally sets a fixed front-matter menu entry, not modelled.) -/
structure BuiltPage where
  title : String
  body : List DocNode
  logs : List String
deriving Repr

/-- The front-matter switch of `_writeApiItemPage`: the page title and
any log line; `none` is the early return for the root entry point, and
`.error` the `Unsupported API item kind` throw. -/
def pageTitle (item : PageItem) : Except String (Option (String × List String)) :=
  match item.kind with
  | .Class => .ok (some (item.scopedName ++ " class", []))
  | .EntryPoint =>
      if item.displayName = "" then .ok none
      else .ok (some (getUnscopedName (parentDisplayName item.hierarchy) ++ "/" ++
        item.displayName ++ " entrypoint", []))
  | .Enum => .ok (some (item.scopedName ++ " enum", []))
  | .Interface => .ok (some (item.scopedName ++ " interface", []))
  | .Constructor => .ok (some (item.scopedName, []))
  | .ConstructSignature => .ok (some (item.scopedName, []))
  | .Method => .ok (some (item.scopedName ++ " method", []))
  | .MethodSignature => .ok (some (item.scopedName ++ " method", []))
  | .Function => .ok (some (item.scopedName ++ " function", []))
  | .Model => .ok (some ("API Reference", []))
  | .Namespace => .ok (some (item.scopedName ++ " namespace", []))
  | .Package => .ok (some (getUnscopedName item.displayName ++ " package",
      ["Writing " ++ item.displayName ++ " package"]))
  | .Property => .ok (some (item.scopedName ++ " property", []))
  | .PropertySignature => .ok (some (item.scopedName ++ " property", []))
  | .TypeAlias => .ok (some (item.scopedName ++ " type", []))
  | .Variable => .ok (some (item.scopedName ++ " variable", []))
  | k => .error ("Unsupported API item kind: " ++ kindName k)

def alphaWarningNote : DocNode :=
  DocNode.noteBox [DocNode.paragraph [DocNode.plainText
    ("This API is provided as an alpha preview for developers and may change"
      ++ " based on feedback that we receive.  Do not use this API in a production environment.")]]

def betaWarningNote : DocNode :=
  DocNode.noteBox [DocNode.paragraph [DocNode.plainText
    ("This API is provided as a beta preview for developers and may change"
      ++ " based on feedback that we receive.  Do not use this API in a production environment.")]]

/-- The comment's `@decorator` custom blocks. -/
def pageDecoratorBlocks (item : PageItem) : List DocBlock :=
  if isDocumentedItemKind item.kind then
    match item.tsdocComment with
    | some c => c.customBlocks.filter (fun b => b.tagNameWithUpperCase = "@DECORATOR")
    | none => []
  else []

/-- The body nodes `_writeApiItemPage` appends before the remarks/table
switches: release warnings, deprecation note and summary, signature block
and heritage lines, and decorator blocks. -/
def commonLeadNodes (resolve : Resolver) (item : PageItem) : List DocNode :=
  (match item.releaseTag with
   | some ReleaseTag.Alpha => [alphaWarningNote]
   | some ReleaseTag.Beta => [betaWarningNote]
   | _ => []) ++
  (if isDocumentedItemKind item.kind then
    match item.tsdocComment with
    | some c =>
        (match c.deprecatedBlock with
         | some dep =>
             [DocNode.noteBox
               (DocNode.paragraph
                 [DocNode.plainText "Warning: This API is now obsolete. "] :: dep)]
         | none => []) ++ c.summarySection
    | none => []
   else []) ++
  (if isDeclaredItemKind item.kind then
    (if (excerptTextOf item.excerpt).length > 0 then
      [DocNode.paragraph [DocNode.emphasisSpan true false [DocNode.plainText "Signature:"]],
       DocNode.fencedCode "typescript" item.excerptWithModifiers]
     else []) ++ writeHeritageTypes resolve item
   else []) ++
  (let decoratorBlocks := pageDecoratorBlocks item
   if decoratorBlocks.length > 0 then
     DocNode.paragraph [DocNode.emphasisSpan true false [DocNode.plainText "Decorators:"]] ::
       decoratorBlocks.flatMap (fun b => b.content)
   else [])

/-- The kinds for which `_writeApiItemPage` writes the remarks section
before the kind switch (and suppresses it afterwards). -/
def isContainerRemarksKind : ApiItemKind → Bool
  | .Class => true
  | .Interface => true
  | .Namespace => true
  | .Package => true
  | _ => false

def entryPointTodoText : String :=
  "TODO: Please reference the root entrypoint which contains links to elements from all entrypoints"

/-- The kind-specific switch of `_writeApiItemPage`, applied to the
output built so far (the entry-point arm appends into the output's
trailing paragraph); returns the extended output and the log lines. -/
def kindSection (resolve : Resolver) (cfg : Option DocumenterConfig)
    (item : PageItem) (output : List DocNode) :
    Except String (List DocNode × List String) :=
  match item.kind with
  | .Class =>
      let r := writeClassTables resolve cfg item
      .ok (output ++ r.1, r.2)
  | .Enum => .ok (output ++ writeEnumTables item, [])
  | .Interface =>
      let r := writeInterfaceTables resolve cfg item
      .ok (output ++ r.1, r.2)
  | .Constructor =>
      .ok (output ++ writeParameterTables resolve item ++ writeThrowsSection item, [])
  | .ConstructSignature =>
      .ok (output ++ writeParameterTables resolve item ++ writeThrowsSection item, [])
  | .Method =>
      .ok (output ++ writeParameterTables resolve item ++ writeThrowsSection item, [])
  | .MethodSignature =>
      .ok (output ++ writeParameterTables resolve item ++ writeThrowsSection item, [])
  | .Function =>
      .ok (output ++ writeParameterTables resolve item ++ writeThrowsSection item, [])
  | .Namespace => .ok (output ++ writePackageOrNamespaceTables resolve item, [])
  | .Model => .ok (output ++ writeModelTable resolve item, [])
  | .EntryPoint =>
      .ok (appendNodesInParagraph output [DocNode.plainText entryPointTodoText], [])
  | .Package => .ok (output ++ writePackageOrNamespaceTables resolve item, [])
  | .Property => .ok (output, [])
  | .PropertySignature => .ok (output, [])
  | .TypeAlias => .ok (output, [])
  | .Variable => .ok (output, [])
  | k => .error ("Unsupported API item kind: " ++ kindName k)

/-- `HugoDocumenter._writeApiItemPage`, as the page it builds: `none`
when the early return fires (root entry point), `.error` on an
unsupported kind. -/
def writeApiItemPage (resolve : Resolver) (cfg : Option DocumenterConfig)
    (item : PageItem) : Except String (Option BuiltPage) :=
  match pageTitle item with
  | .error e => .error e
  | .ok none => .ok none
  | .ok (some (title, titleLogs)) =>
      let lead := commonLeadNodes resolve item
      let beforeTables :=
        lead ++ (if isContainerRemarksKind item.kind then writeRemarksSection item else [])
      match kindSection resolve cfg item beforeTables with
      | .error e => .error e
      | .ok (withKind, kindLogs) =>
          let body :=
            withKind ++
              (if isContainerRemarksKind item.kind then [] else writeRemarksSection item)
          .ok (some ⟨title, body, titleLogs ++ kindLogs⟩)

/-! ### C4: unresolved references degrade to plain text -/

def isLinkNode : DocNode → Bool
  | .linkTag _ _ => true
  | _ => false

/-- C4: `_appendExcerptTokenWithHyperlinks` produces a link node exactly
for reference tokens whose canonical reference resolves to an item in the
model; every other token — in particular a reference the model cannot
resolve — is appended as plain text with newline runs collapsed to a
single space, and no error is raised (the function is total). -/
theorem unresolved_reference_degrades_to_plain_text (resolve : Resolver)
    (token : ExcerptToken) :
    isLinkNode (appendExcerptTokenWithHyperlinks resolve token) =
      (token.kind == ExcerptTokenKind.Reference &&
        (token.canonicalReference.bind resolve).isSome) ∧
    (isLinkNode (appendExcerptTokenWithHyperlinks resolve token) = false →
      appendExcerptTokenWithHyperlinks resolve token =
        DocNode.plainText (collapseNewlines token.text)) := by
  obtain ⟨kind, text, cr⟩ := token
  cases kind with
  | Content =>
      refine ⟨by cases cr <;> simp [appendExcerptTokenWithHyperlinks, isLinkNode],
        fun _ => by cases cr <;> simp [appendExcerptTokenWithHyperlinks]⟩
  | Reference =>
      cases cr with
      | none =>
          refine ⟨by simp [appendExcerptTokenWithHyperlinks, isLinkNode],
            fun _ => by simp [appendExcerptTokenWithHyperlinks]⟩
      | some r =>
          cases hres : resolve r with
          | none =>
              refine ⟨by simp [appendExcerptTokenWithHyperlinks, isLinkNode, hres],
                fun _ => by simp [appendExcerptTokenWithHyperlinks, hres]⟩
          | some hier =>
              refine ⟨by simp [appendExcerptTokenWithHyperlinks, isLinkNode, hres],
                fun h => ?_⟩
              simp [appendExcerptTokenWithHyperlinks, isLinkNode, hres] at h

/-- C4 witness: a reference token the model cannot resolve is emitted as
plain text with its newline collapsed. -/
theorem unresolved_reference_witness :
    appendExcerptTokenWithHyperlinks (fun _ => none)
      ⟨ExcerptTokenKind.Reference, "Forward\nRef", some 0⟩ =
      DocNode.plainText "Forward Ref" :=
  (unresolved_reference_degrades_to_plain_text (fun _ => none)
    ⟨ExcerptTokenKind.Reference, "Forward\nRef", some 0⟩).2 rfl

/-! ### C5: zero-row tables are never emitted -/

def hasNoEmptyTables (nodes : List DocNode) : Bool :=
  nodes.all (fun n =>
    match n with
    | DocNode.table _ rows => !rows.isEmpty
    | _ => true)

theorem hasNoEmptyTables_append (a b : List DocNode) :
    hasNoEmptyTables (a ++ b) = (hasNoEmptyTables a && hasNoEmptyTables b) := by
  simp [hasNoEmptyTables, List.all_append]

theorem hasNoEmptyTables_tableIfNonEmpty (title : String) (headers : List String)
    (rows : List DocNode) : hasNoEmptyTables (tableIfNonEmpty title headers rows) = true := by
  rw [tableIfNonEmpty]
  split
  · next h => cases rows <;> simp_all [hasNoEmptyTables]
  · simp [hasNoEmptyTables]

theorem hasNoEmptyTables_incompleteWarning (cfg : Option DocumenterConfig)
    (item : PageItem) :
    hasNoEmptyTables (getMembersAndWriteIncompleteWarning cfg item).1 = true := by
  rcases cfg with _ | c
  · rfl
  · by_cases h : c.showInheritedMembers = false
    · simp [getMembersAndWriteIncompleteWarning, h, hasNoEmptyTables]
    · by_cases h2 : item.findResult.maybeIncompleteResult
      · simp [getMembersAndWriteIncompleteWarning, h, h2, hasNoEmptyTables,
          incompleteWarningParagraph]
      · simp [getMembersAndWriteIncompleteWarning, h, h2, hasNoEmptyTables]

theorem createParagraphForTypeExcerpt_isParagraph (resolve : Resolver) (e : Excerpt) :
    ∃ ns, createParagraphForTypeExcerpt resolve e = DocNode.paragraph ns := by
  rw [createParagraphForTypeExcerpt]
  split
  · exact ⟨_, rfl⟩
  · exact ⟨_, rfl⟩

/-- C5: every table emitted by a table-building writer — the
package/namespace writer, the model writer, the class writer, the
interface writer, the enum writer, and the parameter writer of
function-like pages — has at least one row: a zero-row table (together
with its heading, which is emitted under the same guard) never reaches
the page body.  The parameter-writer conjunct assumes the comment's
spliced `@returns` block content itself carries no zero-row table: tsdoc
comment content cannot contain the builder's custom table kind, so every
table in a page body is builder-created and covered. -/
theorem zero_row_tables_never_emitted (resolve : Resolver)
    (cfg : Option DocumenterConfig) (item : PageItem) :
    hasNoEmptyTables (writePackageOrNamespaceTables resolve item) = true ∧
    hasNoEmptyTables (writeModelTable resolve item) = true ∧
    hasNoEmptyTables (writeClassTables resolve cfg item).1 = true ∧
    hasNoEmptyTables (writeInterfaceTables resolve cfg item).1 = true ∧
    hasNoEmptyTables (writeEnumTables item) = true ∧
    (hasNoEmptyTables (returnsBlockNodes item) = true →
      hasNoEmptyTables (writeParameterTables resolve item) = true) := by
  refine ⟨?_, ?_, ?_, ?_, ?_, ?_⟩
  · rw [writePackageOrNamespaceTables]
    simp only [hasNoEmptyTables_append, hasNoEmptyTables_tableIfNonEmpty, Bool.and_true]
    split
    · next h =>
        split
        · next h2 =>
            cases hep : item.entryPoints.map (fun ep =>
              DocNode.tableRow [DocNode.tableCell [DocNode.paragraph
                [DocNode.linkTag
                  (item.name ++
                    (if ep.importPath = "" then "" else "/" ++ ep.importPath))
                  (getLinkFilenameForApiItem ep.hierarchy)]]]) with
            | nil =>
                rw [hep] at h2
                simp at h2
            | cons x xs => simp_all [hasNoEmptyTables]
        · simp [hasNoEmptyTables]
    · simp [hasNoEmptyTables]
  · rw [writeModelTable]
    exact hasNoEmptyTables_tableIfNonEmpty _ _ _
  · rw [writeClassTables]
    simp only [hasNoEmptyTables_append, hasNoEmptyTables_incompleteWarning cfg item,
      Bool.true_and]
    rw [classMemberTableNodes]
    simp only [hasNoEmptyTables_append, hasNoEmptyTables_tableIfNonEmpty]
    rfl
  · rw [writeInterfaceTables]
    simp only [hasNoEmptyTables_append, hasNoEmptyTables_incompleteWarning cfg item,
      Bool.true_and]
    rw [interfaceMemberTableNodes]
    simp only [hasNoEmptyTables_append, hasNoEmptyTables_tableIfNonEmpty]
    rfl
  · rw [writeEnumTables]
    exact hasNoEmptyTables_tableIfNonEmpty _ _ _
  · intro hret
    rw [writeParameterTables]
    simp only [hasNoEmptyTables_append, hasNoEmptyTables_tableIfNonEmpty, Bool.true_and]
    cases hre : item.returnTypeExcerpt with
    | none => rfl
    | some returnExcerpt =>
        dsimp only
        obtain ⟨ns, hns⟩ := createParagraphForTypeExcerpt_isParagraph resolve returnExcerpt
        rw [hns, hasNoEmptyTables_append]
        rw [show hasNoEmptyTables [DocNode.paragraph [],
          DocNode.paragraph [DocNode.emphasisSpan true false [DocNode.plainText "Returns:"]],
          DocNode.paragraph ns] = true from rfl]
        rw [Bool.true_and]
        exact hret

/-- C5 witness: the parameter-writer conjunct at a parameterless,
commentless method page, whose returns-block splice is empty. -/
theorem zero_row_tables_never_emitted_witness :
    hasNoEmptyTables (writeParameterTables (fun _ => none)
      { kind := ApiItemKind.Method, displayName := "draw",
        scopedName := "Widget.draw", name := "draw",
        hierarchy := [⟨ApiItemKind.Model, "", 1⟩], releaseTag := none,
        tsdocComment := none, excerpt := [], excerptTokens := [],
        excerptWithModifiers := "", extendsType := none, implementsTypes := [],
        interfaceExtendsTypes := [], members := [], entryPoints := [],
        findResult := ⟨[], false, []⟩, parameters := [],
        returnTypeExcerpt := some [⟨ExcerptTokenKind.Content, "void", none⟩] }) =
      true :=
  (zero_row_tables_never_emitted (fun _ => none) none
    { kind := ApiItemKind.Method, displayName := "draw",
      scopedName := "Widget.draw", name := "draw",
      hierarchy := [⟨ApiItemKind.Model, "", 1⟩], releaseTag := none,
      tsdocComment := none, excerpt := [], excerptTokens := [],
      excerptWithModifiers := "", extendsType := none, implementsTypes := [],
      interfaceExtendsTypes := [], members := [], entryPoints := [],
      findResult := ⟨[], false, []⟩, parameters := [],
      returnTypeExcerpt := some [⟨ExcerptTokenKind.Content, "void", none⟩] }).2.2.2.2.2
    rfl

/-! ### C6: the type-alias References list -/

/-- The de-duplication performed by the references loop, as the kept
token subsequence: a token is kept when its text has not been visited. -/
def firstDedupTokens (visited : List String) : Excerpt → Excerpt
  | [] => []
  | r :: rs =>
      if r.text ∈ visited then firstDedupTokens visited rs
      else r :: firstDedupTokens (r.text :: visited) rs

/-- The link text of a link node. -/
def linkTextOf : DocNode → Option String
  | DocNode.linkTag t _ => some t
  | _ => none

/-- The link texts of a rendered single-paragraph heritage line (the
nodes after the bold label). -/
def referenceLinkTexts (nodes : List DocNode) : List String :=
  match nodes with
  | [DocNode.paragraph (_ :: rest)] => rest.filterMap linkTextOf
  | _ => []

theorem mem_aliasResolvedRefs_linkTag {resolve : Resolver} {tokens : Excerpt}
    {r : ExcerptToken} (h : r ∈ aliasResolvedRefs resolve tokens) :
    ∃ u, appendExcerptTokenWithHyperlinks resolve r =
      DocNode.linkTag (collapseNewlines r.text) u := by
  obtain ⟨hmem, hp⟩ := List.mem_filter.mp h
  obtain ⟨k, tx, cr⟩ := r
  simp only [Bool.and_eq_true, beq_iff_eq] at hp
  obtain ⟨hk, hcr⟩ := hp
  subst hk
  cases cr with
  | none => simp at hcr
  | some ref =>
      simp only [Option.isSome_iff_exists] at hcr
      obtain ⟨hier, hhier⟩ := hcr
      exact ⟨getLinkFilenameForApiItem hier,
        by simp [appendExcerptTokenWithHyperlinks, hhier]⟩

theorem referencesLoop_linkTexts (resolve : Resolver) :
    ∀ (rs : Excerpt) (visited : List String) (needsComma : Bool),
      (∀ r ∈ rs, ∃ u, appendExcerptTokenWithHyperlinks resolve r =
        DocNode.linkTag (collapseNewlines r.text) u) →
      (referencesLoop resolve visited needsComma rs).filterMap linkTextOf =
        (firstDedupTokens visited rs).map (fun t => collapseNewlines t.text) := by
  intro rs
  induction rs with
  | nil => intro visited needsComma _; rfl
  | cons r rs ih =>
      intro visited needsComma hres
      by_cases hv : r.text ∈ visited
      · rw [referencesLoop, firstDedupTokens]
        simp only [hv, if_pos]
        exact ih visited needsComma (fun x hx => hres x (List.mem_cons_of_mem r hx))
      · rw [referencesLoop, firstDedupTokens]
        simp only [hv, if_neg, not_false_iff]
        obtain ⟨u, hu⟩ := hres r (List.mem_cons_self r rs)
        rw [List.filterMap_append, List.filterMap_cons, hu]
        have hcomma : (if needsComma then [DocNode.plainText ", "] else []).filterMap
            linkTextOf = [] := by
          cases needsComma <;> rfl
        rw [hcomma]
        simp only [linkTextOf, List.nil_append, List.map_cons]
        rw [ih (r.text :: visited) true
          (fun x hx => hres x (List.mem_cons_of_mem r hx))]

theorem firstDedupTokens_nodup_and_disjoint :
    ∀ (rs : Excerpt) (visited : List String),
      ((firstDedupTokens visited rs).map (fun t => t.text)).Nodup ∧
      ∀ s ∈ (firstDedupTokens visited rs).map (fun t => t.text), s ∉ visited := by
  intro rs
  induction rs with
  | nil => intro visited; exact ⟨List.nodup_nil, by simp [firstDedupTokens]⟩
  | cons r rs ih =>
      intro visited
      by_cases hv : r.text ∈ visited
      · rw [firstDedupTokens]
        simp only [hv, if_pos]
        exact ih visited
      · rw [firstDedupTokens]
        simp only [hv, if_neg, not_false_iff, List.map_cons]
        obtain ⟨hnd, hdisj⟩ := ih (r.text :: visited)
        constructor
        · refine List.nodup_cons.mpr ⟨?_, hnd⟩
          intro hmem
          exact (hdisj r.text hmem) (List.mem_cons_self _ _)
        · intro s hs
          rcases List.mem_cons.mp hs with h | h
          · subst h; exact hv
          · intro hsv
            exact (hdisj s h) (List.mem_cons_of_mem _ hsv)

theorem firstDedupTokens_sublist :
    ∀ (rs : Excerpt) (visited : List String),
      (firstDedupTokens visited rs).Sublist rs := by
  intro rs
  induction rs with
  | nil => intro visited; simp [firstDedupTokens]
  | cons r rs ih =>
      intro visited
      rw [firstDedupTokens]
      by_cases hv : r.text ∈ visited
      · simp only [hv, if_pos]
        exact List.Sublist.cons r (ih visited)
      · simp only [hv, if_neg, not_false_iff]
        exact List.Sublist.cons₂ r (ih (r.text :: visited))

theorem firstDedupTokens_mem :
    ∀ (rs : Excerpt) (visited : List String) (s : String),
      (s ∈ (firstDedupTokens visited rs).map (fun t => t.text)) ↔
        (s ∈ rs.map (fun t => t.text) ∧ s ∉ visited) := by
  intro rs
  induction rs with
  | nil => intro visited s; simp [firstDedupTokens]
  | cons r rs ih =>
      intro visited s
      rw [firstDedupTokens]
      by_cases hv : r.text ∈ visited
      · simp only [hv, if_pos, List.map_cons, List.mem_cons]
        rw [ih visited s]
        constructor
        · intro ⟨h1, h2⟩; exact ⟨Or.inr h1, h2⟩
        · rintro ⟨h1 | h1, h2⟩
          · subst h1; exact absurd hv h2
          · exact ⟨h1, h2⟩
      · simp only [hv, if_neg, not_false_iff, List.map_cons, List.mem_cons]
        rw [ih (r.text :: visited) s]
        constructor
        · rintro (h | ⟨h1, h2⟩)
          · subst h; exact ⟨Or.inl rfl, hv⟩
          · exact ⟨Or.inr h1, fun hsv => h2 (List.mem_cons_of_mem _ hsv)⟩
        · rintro ⟨h1 | h1, h2⟩
          · exact Or.inl h1
          · by_cases hsr : s = r.text
            · exact Or.inl hsr
            · exact Or.inr ⟨h1, by simp [List.mem_cons, hsr, h2]⟩

/-- C6: on a type-alias page, the References paragraph exists exactly
when some reference token of the alias's excerpt resolves; its rendered
link texts are the resolved reference tokens de-duplicated by token text
in first-occurrence order (each text listed exactly once, a subsequence
of the token order, with exactly the resolved tokens' texts). -/
theorem alias_references_dedup (resolve : Resolver) (item : PageItem)
    (hk : item.kind = ApiItemKind.TypeAlias) :
    (writeHeritageTypes resolve item = [] ↔
      aliasResolvedRefs resolve item.excerptTokens = []) ∧
    referenceLinkTexts (writeHeritageTypes resolve item) =
      (firstDedupTokens [] (aliasResolvedRefs resolve item.excerptTokens)).map
        (fun t => collapseNewlines t.text) ∧
    ((firstDedupTokens [] (aliasResolvedRefs resolve item.excerptTokens)).map
      (fun t => t.text)).Nodup ∧
    ((firstDedupTokens [] (aliasResolvedRefs resolve item.excerptTokens)).map
      (fun t => t.text)).Sublist
        ((aliasResolvedRefs resolve item.excerptTokens).map (fun t => t.text)) ∧
    (∀ s, s ∈ (firstDedupTokens [] (aliasResolvedRefs resolve item.excerptTokens)).map
        (fun t => t.text) ↔
      s ∈ (aliasResolvedRefs resolve item.excerptTokens).map (fun t => t.text)) := by
  have hw : writeHeritageTypes resolve item =
      (if (aliasResolvedRefs resolve item.excerptTokens).length > 0 then
        [DocNode.paragraph
          (DocNode.emphasisSpan true false [DocNode.plainText "References: "] ::
            referencesLoop resolve [] false
              (aliasResolvedRefs resolve item.excerptTokens))]
       else []) := by
    rw [writeHeritageTypes, hk]
    simp
  refine ⟨?_, ?_, (firstDedupTokens_nodup_and_disjoint _ []).1,
    List.Sublist.map _ (firstDedupTokens_sublist _ []), ?_⟩
  · rw [hw]
    cases hr : aliasResolvedRefs resolve item.excerptTokens with
    | nil => simp
    | cons x xs => simp
  · rw [hw]
    cases hr : aliasResolvedRefs resolve item.excerptTokens with
    | nil => simp [referenceLinkTexts, firstDedupTokens]
    | cons x xs =>
        simp only [List.length_cons, Nat.zero_lt_succ, if_pos, gt_iff_lt]
        rw [referenceLinkTexts]
        rw [referencesLoop_linkTexts resolve (x :: xs) [] false]
        intro r hrm
        exact mem_aliasResolvedRefs_linkTag (by rw [hr]; exact hrm)
  · intro s
    rw [firstDedupTokens_mem]
    simp

/-- C6 witness: a type alias whose excerpt references `Widget` twice (the
second reference with a newline in its text) renders `Widget` exactly
once. -/
theorem alias_references_dedup_witness :
    referenceLinkTexts (writeHeritageTypes
      (fun ref => if ref = 7 then some [⟨ApiItemKind.Model, "", 1⟩] else none)
      { kind := ApiItemKind.TypeAlias, displayName := "W", scopedName := "W",
        name := "W", hierarchy := [], releaseTag := none, tsdocComment := none,
        excerpt := [], excerptTokens :=
          [⟨ExcerptTokenKind.Reference, "Widget", some 7⟩,
           ⟨ExcerptTokenKind.Content, " | ", none⟩,
           ⟨ExcerptTokenKind.Reference, "Widget", some 7⟩],
        excerptWithModifiers := "", extendsType := none, implementsTypes := [],
        interfaceExtendsTypes := [], members := [], entryPoints := [],
        findResult := ⟨[], false, []⟩, parameters := [],
        returnTypeExcerpt := none }) = ["Widget"] := by
  rw [(alias_references_dedup
    (fun ref => if ref = 7 then some [⟨ApiItemKind.Model, "", 1⟩] else none)
    { kind := ApiItemKind.TypeAlias, displayName := "W", scopedName := "W",
      name := "W", hierarchy := [], releaseTag := none, tsdocComment := none,
      excerpt := [], excerptTokens :=
        [⟨ExcerptTokenKind.Reference, "Widget", some 7⟩,
         ⟨ExcerptTokenKind.Content, " | ", none⟩,
         ⟨ExcerptTokenKind.Reference, "Widget", some 7⟩],
      excerptWithModifiers := "", extendsType := none, implementsTypes := [],
      interfaceExtendsTypes := [], members := [], entryPoints := [],
      findResult := ⟨[], false, []⟩, parameters := [],
      returnTypeExcerpt := none } rfl).2.1]
  rfl

/-! ### C7: position of the remarks/examples section -/

/-- The body of a successfully built page (empty for a skipped page or
an error). -/
def builtBody : Except String (Option BuiltPage) → List DocNode
  | .ok (some p) => p.body
  | _ => []

/-- The nodes the kind-specific switch of `_writeApiItemPage` appends
for each supported kind. -/
def kindSpecificNodes (resolve : Resolver) (cfg : Option DocumenterConfig)
    (item : PageItem) : List DocNode :=
  match item.kind with
  | .Class => (writeClassTables resolve cfg item).1
  | .Enum => writeEnumTables item
  | .Interface => (writeInterfaceTables resolve cfg item).1
  | .Constructor => writeParameterTables resolve item ++ writeThrowsSection item
  | .ConstructSignature => writeParameterTables resolve item ++ writeThrowsSection item
  | .Method => writeParameterTables resolve item ++ writeThrowsSection item
  | .MethodSignature => writeParameterTables resolve item ++ writeThrowsSection item
  | .Function => writeParameterTables resolve item ++ writeThrowsSection item
  | .Namespace => writePackageOrNamespaceTables resolve item
  | .Model => writeModelTable resolve item
  | .EntryPoint => [DocNode.paragraph [DocNode.plainText entryPointTodoText]]
  | .Package => writePackageOrNamespaceTables resolve item
  | _ => []

/-- For an entry-point page, the nodes preceding the kind switch are
release warnings only (entry points are neither documented nor declared
items), so the section never ends with a paragraph and
`appendNodeInParagraph` starts a fresh one. -/
theorem commonLead_entryPoint_append (resolve : Resolver) (item : PageItem)
    (hk : item.kind = ApiItemKind.EntryPoint) (nodes : List DocNode) :
    appendNodesInParagraph (commonLeadNodes resolve item) nodes =
      commonLeadNodes resolve item ++ [DocNode.paragraph nodes] := by
  have hlead : commonLeadNodes resolve item =
      (match item.releaseTag with
       | some ReleaseTag.Alpha => [alphaWarningNote]
       | some ReleaseTag.Beta => [betaWarningNote]
       | _ => []) := by
    rw [commonLeadNodes, hk]
    simp [isDocumentedItemKind, isDeclaredItemKind, pageDecoratorBlocks, hk]
  rw [hlead]
  cases htag : item.releaseTag with
  | none => rfl
  | some tag => cases tag <;> rfl

/-- C7: for class, interface, namespace, package and model pages the
remarks/examples section appears in the body before the kind-specific
member tables; for every other supported page kind it appears after the
kind-specific content.  (A model page carries no structured comment —
`ApiModel` is not a documented item — so its remarks section is empty and
both orders coincide even though the code defers it.) -/
theorem remarks_position (resolve : Resolver) (cfg : Option DocumenterConfig)
    (item : PageItem) :
    (item.kind = ApiItemKind.Class ∨ item.kind = ApiItemKind.Interface ∨
     item.kind = ApiItemKind.Namespace ∨ item.kind = ApiItemKind.Package ∨
     item.kind = ApiItemKind.Model →
      builtBody (writeApiItemPage resolve cfg item) =
        commonLeadNodes resolve item ++ writeRemarksSection item ++
          kindSpecificNodes resolve cfg item) ∧
    (item.kind = ApiItemKind.Enum ∨ item.kind = ApiItemKind.Constructor ∨
     item.kind = ApiItemKind.ConstructSignature ∨ item.kind = ApiItemKind.Method ∨
     item.kind = ApiItemKind.MethodSignature ∨ item.kind = ApiItemKind.Function ∨
     item.kind = ApiItemKind.Property ∨ item.kind = ApiItemKind.PropertySignature ∨
     item.kind = ApiItemKind.TypeAlias ∨ item.kind = ApiItemKind.Variable ∨
     (item.kind = ApiItemKind.EntryPoint ∧ item.displayName ≠ "") →
      builtBody (writeApiItemPage resolve cfg item) =
        commonLeadNodes resolve item ++ kindSpecificNodes resolve cfg item ++
          writeRemarksSection item) := by
  constructor
  · intro h
    rcases h with h | h | h | h | h <;>
      simp [writeApiItemPage, pageTitle, kindSection, builtBody, kindSpecificNodes,
        isContainerRemarksKind, writeRemarksSection, isDocumentedItemKind, h]
  · intro h
    rcases h with h | h | h | h | h | h | h | h | h | h | ⟨h, hd⟩ <;>
      simp [writeApiItemPage, pageTitle, kindSection, builtBody, kindSpecificNodes,
        isContainerRemarksKind, writeRemarksSection, isDocumentedItemKind, h]
    · rw [commonLead_entryPoint_append resolve item h]
      simp [hd]

/-- C7 witness: the ordering at a concrete class page (remarks before the
tables) and a concrete method page (remarks after the kind-specific
content). -/
theorem remarks_position_witness :
    (builtBody (writeApiItemPage (fun _ => none) none
        { kind := ApiItemKind.Class, displayName := "Sample",
          scopedName := "Sample", name := "Sample",
          hierarchy := [⟨ApiItemKind.Model, "", 1⟩], releaseTag := none,
          tsdocComment := none, excerpt := [], excerptTokens := [],
          excerptWithModifiers := "", extendsType := none, implementsTypes := [],
          interfaceExtendsTypes := [], members := [], entryPoints := [],
          findResult := ⟨[], false, []⟩, parameters := [],
          returnTypeExcerpt := none }) =
      commonLeadNodes (fun _ => none)
        { kind := ApiItemKind.Class, displayName := "Sample",
          scopedName := "Sample", name := "Sample",
          hierarchy := [⟨ApiItemKind.Model, "", 1⟩], releaseTag := none,
          tsdocComment := none, excerpt := [], excerptTokens := [],
          excerptWithModifiers := "", extendsType := none, implementsTypes := [],
          interfaceExtendsTypes := [], members := [], entryPoints := [],
          findResult := ⟨[], false, []⟩, parameters := [],
          returnTypeExcerpt := none } ++
        writeRemarksSection
        { kind := ApiItemKind.Class, displayName := "Sample",
          scopedName := "Sample", name := "Sample",
          hierarchy := [⟨ApiItemKind.Model, "", 1⟩], releaseTag := none,
          tsdocComment := none, excerpt := [], excerptTokens := [],
          excerptWithModifiers := "", extendsType := none, implementsTypes := [],
          interfaceExtendsTypes := [], members := [], entryPoints := [],
          findResult := ⟨[], false, []⟩, parameters := [],
          returnTypeExcerpt := none } ++
        kindSpecificNodes (fun _ => none) none
        { kind := ApiItemKind.Class, displayName := "Sample",
          scopedName := "Sample", name := "Sample",
          hierarchy := [⟨ApiItemKind.Model, "", 1⟩], releaseTag := none,
          tsdocComment := none, excerpt := [], excerptTokens := [],
          excerptWithModifiers := "", extendsType := none, implementsTypes := [],
          interfaceExtendsTypes := [], members := [], entryPoints := [],
          findResult := ⟨[], false, []⟩, parameters := [],
          returnTypeExcerpt := none }) ∧
    (builtBody (writeApiItemPage (fun _ => none) none
        { kind := ApiItemKind.Method, displayName := "draw",
          scopedName := "Widget.draw", name := "draw",
          hierarchy := [⟨ApiItemKind.Model, "", 1⟩], releaseTag := none,
          tsdocComment := none, excerpt := [], excerptTokens := [],
          excerptWithModifiers := "", extendsType := none, implementsTypes := [],
          interfaceExtendsTypes := [], members := [], entryPoints := [],
          findResult := ⟨[], false, []⟩, parameters := [],
          returnTypeExcerpt := none }) =
      commonLeadNodes (fun _ => none)
        { kind := ApiItemKind.Method, displayName := "draw",
          scopedName := "Widget.draw", name := "draw",
          hierarchy := [⟨ApiItemKind.Model, "", 1⟩], releaseTag := none,
          tsdocComment := none, excerpt := [], excerptTokens := [],
          excerptWithModifiers := "", extendsType := none, implementsTypes := [],
          interfaceExtendsTypes := [], members := [], entryPoints := [],
          findResult := ⟨[], false, []⟩, parameters := [],
          returnTypeExcerpt := none } ++
        kindSpecificNodes (fun _ => none) none
        { kind := ApiItemKind.Method, displayName := "draw",
          scopedName := "Widget.draw", name := "draw",
          hierarchy := [⟨ApiItemKind.Model, "", 1⟩], releaseTag := none,
          tsdocComment := none, excerpt := [], excerptTokens := [],
          excerptWithModifiers := "", extendsType := none, implementsTypes := [],
          interfaceExtendsTypes := [], members := [], entryPoints := [],
          findResult := ⟨[], false, []⟩, parameters := [],
          returnTypeExcerpt := none } ++
        writeRemarksSection
        { kind := ApiItemKind.Method, displayName := "draw",
          scopedName := "Widget.draw", name := "draw",
          hierarchy := [⟨ApiItemKind.Model, "", 1⟩], releaseTag := none,
          tsdocComment := none, excerpt := [], excerptTokens := [],
          excerptWithModifiers := "", extendsType := none, implementsTypes := [],
          interfaceExtendsTypes := [], members := [], entryPoints := [],
          findResult := ⟨[], false, []⟩, parameters := [],
          returnTypeExcerpt := none }) :=
  ⟨(remarks_position (fun _ => none) none _).1 (Or.inl rfl),
   (remarks_position (fun _ => none) none _).2 (Or.inr (Or.inr (Or.inr (Or.inl rfl))))⟩

/-! ### C8: the incomplete-inheritance advisory -/

def isIncompleteAdvisoryNode (n : DocNode) : Bool :=
  match n with
  | DocNode.paragraph [DocNode.emphasisSpan false true [DocNode.plainText t]] =>
      t == "(Some inherited members may not be shown because they are not represented in the documentation.)"
  | _ => false

def firstNodeIsAdvisory (nodes : List DocNode) : Bool :=
  match nodes with
  | n :: _ => isIncompleteAdvisoryNode n
  | [] => false

def exceptIsOk : Except String (Option BuiltPage) → Bool
  | .ok _ => true
  | .error _ => false

/-- A class page with inherited-member display enabled, a summary
comment, and an inheritance query reporting incompleteness. -/
def incompleteClassItem : PageItem where
  kind := ApiItemKind.Class
  displayName := "Widget"
  scopedName := "Widget"
  name := "Widget"
  hierarchy := [⟨ApiItemKind.Model, "", 1⟩, ⟨ApiItemKind.Package, "widgets", 1⟩,
    ⟨ApiItemKind.EntryPoint, "", 1⟩, ⟨ApiItemKind.Class, "Widget", 1⟩]
  releaseTag := none
  tsdocComment := some ⟨[DocNode.paragraph [DocNode.plainText "A widget."]],
    none, none, none, []⟩
  excerpt := []
  excerptTokens := []
  excerptWithModifiers := ""
  extendsType := none
  implementsTypes := []
  interfaceExtendsTypes := []
  members := []
  entryPoints := []
  findResult := ⟨[], true, ["base type is not represented"]⟩
  parameters := []
  returnTypeExcerpt := none

/-- C8 counterexample: for a class page with inherited-member display on
and an incomplete inheritance query, the run completes and the italic
advisory paragraph is in the body, but it is NOT the first body element —
the summary (and any signature/heritage content) precedes it, because the
advisory is appended only when the member tables are built. -/
theorem advisory_not_first_element_counterexample :
    exceptIsOk (writeApiItemPage (fun _ => none)
      (some ⟨true, NewlineKind.CrLf⟩) incompleteClassItem) = true ∧
    (builtBody (writeApiItemPage (fun _ => none)
      (some ⟨true, NewlineKind.CrLf⟩) incompleteClassItem)).any
        isIncompleteAdvisoryNode = true ∧
    firstNodeIsAdvisory (builtBody (writeApiItemPage (fun _ => none)
      (some ⟨true, NewlineKind.CrLf⟩) incompleteClassItem)) = false := by
  refine ⟨rfl, rfl, rfl⟩

/-- C8 (amended): when a class or interface page is built with
inherited-member display enabled and the query reports a
possibly-incomplete result, the page builds successfully, the italic
advisory paragraph is appended to the body right where the member tables
begin (before every member table), and one log line is emitted per
diagnostic message. -/
theorem incomplete_inheritance_advisory (resolve : Resolver)
    (cfg : Option DocumenterConfig) (c : DocumenterConfig) (item : PageItem)
    (hcfg : cfg = some c) (hshow : c.showInheritedMembers = true)
    (hinc : item.findResult.maybeIncompleteResult = true) :
    (item.kind = ApiItemKind.Class →
      writeApiItemPage resolve cfg item = .ok (some
        ⟨item.scopedName ++ " class",
         commonLeadNodes resolve item ++ writeRemarksSection item ++
           (incompleteWarningParagraph ::
             classMemberTableNodes resolve item item.findResult.items),
         item.findResult.messages.map inheritanceDiagnosticLog⟩)) ∧
    (item.kind = ApiItemKind.Interface →
      writeApiItemPage resolve cfg item = .ok (some
        ⟨item.scopedName ++ " interface",
         commonLeadNodes resolve item ++ writeRemarksSection item ++
           (incompleteWarningParagraph ::
             interfaceMemberTableNodes resolve item item.findResult.items),
         item.findResult.messages.map inheritanceDiagnosticLog⟩)) := by
  subst hcfg
  constructor
  · intro hk
    simp [writeApiItemPage, pageTitle, kindSection, writeClassTables,
      getMembersAndWriteIncompleteWarning, hshow, hinc, isContainerRemarksKind, hk]
  · intro hk
    simp [writeApiItemPage, pageTitle, kindSection, writeInterfaceTables,
      getMembersAndWriteIncompleteWarning, hshow, hinc, isContainerRemarksKind, hk]

/-- C8 witness: the amended theorem at the concrete class page. -/
theorem incomplete_inheritance_advisory_witness :
    writeApiItemPage (fun _ => none) (some ⟨true, NewlineKind.CrLf⟩)
      incompleteClassItem = .ok (some
        ⟨incompleteClassItem.scopedName ++ " class",
         commonLeadNodes (fun _ => none) incompleteClassItem ++
           writeRemarksSection incompleteClassItem ++
           (incompleteWarningParagraph ::
             classMemberTableNodes (fun _ => none) incompleteClassItem
               incompleteClassItem.findResult.items),
         incompleteClassItem.findResult.messages.map inheritanceDiagnosticLog⟩) :=
  (incomplete_inheritance_advisory (fun _ => none)
    (some ⟨true, NewlineKind.CrLf⟩) ⟨true, NewlineKind.CrLf⟩
    incompleteClassItem rfl rfl rfl).1 rfl

/-! ### C9: the memoized custom-node configuration -/

/-- A registration call performed against a `TSDocConfiguration`'s
`docNodeManager` (one event per node kind of the `registerDocNodes` call,
plus one per `registerAllowableChildren` call). -/
inductive RegistrationEvent where
  | registerNodeKind (packageName : String) (docNodeKind : String)
  | registerAllowableChildren (parentKind : String) (childKinds : List String)
deriving DecidableEq, Repr

/-- The `DocNodeManager` state the extension layer mutates. -/
structure DocNodeManagerState where
  registeredKinds : List String
  allowableChildren : List (String × String)
deriving DecidableEq, Repr

/-- The observable `TSDocConfiguration` built by `CustomDocNodes`. -/
structure TSDocConfigurationM where
  docNodeManager : DocNodeManagerState
deriving DecidableEq, Repr

/-- The six custom node kinds of `CustomDocNodeKind`. -/
def customDocNodeKinds : List String :=
  ["EmphasisSpan", "Heading", "NoteBox", "Table", "TableCell", "TableRow"]

/-- The registration calls the `CustomDocNodes.configuration` getter
performs on a freshly created `TSDocConfiguration` (the package name
carries the source's typo). -/
def customConfigurationEvents : List RegistrationEvent :=
  [RegistrationEvent.registerNodeKind "@micrososft/api-documenter" "EmphasisSpan",
   RegistrationEvent.registerNodeKind "@micrososft/api-documenter" "Heading",
   RegistrationEvent.registerNodeKind "@micrososft/api-documenter" "NoteBox",
   RegistrationEvent.registerNodeKind "@micrososft/api-documenter" "Table",
   RegistrationEvent.registerNodeKind "@micrososft/api-documenter" "TableCell",
   RegistrationEvent.registerNodeKind "@micrososft/api-documenter" "TableRow",
   RegistrationEvent.registerAllowableChildren "EmphasisSpan" ["PlainText", "SoftBreak"],
   RegistrationEvent.registerAllowableChildren "Section" ["Heading", "NoteBox", "Table"],
   RegistrationEvent.registerAllowableChildren "Paragraph" ["EmphasisSpan"]]

def applyRegistration (st : DocNodeManagerState) (e : RegistrationEvent) :
    DocNodeManagerState :=
  match e with
  | RegistrationEvent.registerNodeKind _ k =>
      { st with registeredKinds := st.registeredKinds ++ [k] }
  | RegistrationEvent.registerAllowableChildren p cs =>
      { st with allowableChildren := st.allowableChildren ++ cs.map (fun c => (p, c)) }

/-- The configuration value created on first access. -/
def customConfiguration : TSDocConfigurationM :=
  ⟨customConfigurationEvents.foldl applyRegistration ⟨[], []⟩⟩

/-- The `CustomDocNodes.configuration` getter as a transition on the
private static `_configuration` field: the returned configuration, the
new field value, and the registration calls performed by this access. -/
def getConfiguration : Option TSDocConfigurationM →
    TSDocConfigurationM × Option TSDocConfigurationM × List RegistrationEvent
  | none => (customConfiguration, some customConfiguration, customConfigurationEvents)
  | some c => (c, some c, [])

/-- `n` successive accesses starting from a given field state: all
returned configurations, the final field state, and all registration
calls performed. -/
def accessConfigurationTimes : Nat → Option TSDocConfigurationM →
    List TSDocConfigurationM × Option TSDocConfigurationM × List RegistrationEvent
  | 0, st => ([], st, [])
  | n + 1, st =>
      let r := getConfiguration st
      let rest := accessConfigurationTimes n r.2.1
      (r.1 :: rest.1, rest.2.1, r.2.2 ++ rest.2.2)

theorem accessConfigurationTimes_some (n : Nat) (c : TSDocConfigurationM) :
    accessConfigurationTimes n (some c) = (List.replicate n c, some c, []) := by
  induction n with
  | zero => rfl
  | succ m ih =>
      simp [accessConfigurationTimes, getConfiguration, ih, List.replicate_succ]

/-- C9: `CustomDocNodes.configuration` is a memoized singleton — an
access with the field already populated returns that very configuration
and performs no registration; any positive number of accesses in a fresh
process all return the one configuration created by the first access, and
the registration calls of the whole sequence are exactly the first
access's, which register each of the six custom kinds exactly once. -/
theorem configuration_memoized_singleton :
    (∀ c, getConfiguration (some c) = (c, some c, [])) ∧
    (∀ n, n > 0 →
      accessConfigurationTimes n none =
        (List.replicate n customConfiguration, some customConfiguration,
          customConfigurationEvents)) ∧
    (∀ k ∈ customDocNodeKinds,
      (customConfigurationEvents.filter (fun e =>
        match e with
        | RegistrationEvent.registerNodeKind _ k2 => k2 = k
        | _ => false)).length = 1) := by
  refine ⟨fun c => rfl, ?_, by decide⟩
  intro n hn
  cases n with
  | zero => omega
  | succ m =>
      simp [accessConfigurationTimes, getConfiguration,
        accessConfigurationTimes_some, List.replicate_succ]

/-- C9 witness: two accesses in a fresh process return the configuration
twice with only the first access's registrations, and `Heading` is
registered exactly once. -/
theorem configuration_memoized_singleton_witness :
    accessConfigurationTimes 2 none =
      (List.replicate 2 customConfiguration, some customConfiguration,
        customConfigurationEvents) ∧
    (customConfigurationEvents.filter (fun e =>
      match e with
      | RegistrationEvent.registerNodeKind _ k2 => k2 = "Heading"
      | _ => false)).length = 1 :=
  ⟨configuration_memoized_singleton.2.1 2 (by omega),
   configuration_memoized_singleton.2.2 "Heading" (by decide)⟩

/-! ### C10: CRLF line endings -/

/-- The newline conversion passed to `FileSystem.writeFile` by
`_writeApiItemPage`: the configured kind when a documenter config exists,
otherwise `NewlineKind.CrLf`. -/
def writeFileNewlineKind : Option DocumenterConfig → NewlineKind
  | some c => c.newlineKind
  | none => NewlineKind.CrLf

/-- The documenter configuration as both CLI actions construct the
documenter: `HugoAction.onExecute` and `MarkdownAction.onExecute` pass
`documenterConfig: undefined`. -/
def cliDocumenterConfig : Option DocumenterConfig := none

/-- `Text.convertToCrLf` of `@rushstack/node-core-library` (the
conversion `FileSystem.writeFile` applies for `NewlineKind.CrLf`):
replace every newline sequence matched left to right — `\r\n`, `\n\r`,
lone `\r`, lone `\n` — with `\r\n`. -/
def convertToCrLf : List Char → List Char
  | [] => []
  | c :: rest =>
      if c = '\r' ∨ c = '\n' then
        match rest with
        | [] => ['\r', '\n']
        | d :: rest2 =>
            if (c = '\r' ∧ d = '\n') ∨ (c = '\n' ∧ d = '\r') then
              '\r' :: '\n' :: convertToCrLf rest2
            else '\r' :: '\n' :: convertToCrLf (d :: rest2)
      else c :: convertToCrLf rest

/-- `Text.convertToLf`, analogously. -/
def convertToLf : List Char → List Char
  | [] => []
  | c :: rest =>
      if c = '\r' ∨ c = '\n' then
        match rest with
        | [] => ['\n']
        | d :: rest2 =>
            if (c = '\r' ∧ d = '\n') ∨ (c = '\n' ∧ d = '\r') then
              '\n' :: convertToLf rest2
            else '\n' :: convertToLf (d :: rest2)
      else c :: convertToLf rest

/-- The conversion applied by `FileSystem.writeFile` for each newline
kind; the platform's native conversion (used for `OsDefault`) is an
external input. -/
def applyNewlineConversion (platformConversion : List Char → List Char) :
    NewlineKind → List Char → List Char
  | NewlineKind.CrLf, s => convertToCrLf s
  | NewlineKind.Lf, s => convertToLf s
  | NewlineKind.OsDefault, s => platformConversion s

/-- The bytes `_writeApiItemPage` hands to the filesystem for a page. -/
def writtenPageBytes (platformConversion : List Char → List Char)
    (cfg : Option DocumenterConfig) (pageContent : String) : String :=
  String.mk (applyNewlineConversion platformConversion
    (writeFileNewlineKind cfg) pageContent.data)

/-- Every line break is a CRLF pair: no `\r` without a following `\n`,
no `\n` without a preceding `\r`. -/
def crlfNormalized : List Char → Bool
  | [] => true
  | c :: rest =>
      if c = '\r' then
        match rest with
        | d :: rest2 => if d = '\n' then crlfNormalized rest2 else false
        | [] => false
      else if c = '\n' then false
      else crlfNormalized rest

theorem crlfNormalized_convertToCrLf : ∀ (l : List Char),
    crlfNormalized (convertToCrLf l) = true
  | [] => rfl
  | c :: rest => by
      rw [convertToCrLf.eq_def]
      dsimp only
      by_cases h : c = '\r' ∨ c = '\n'
      · rw [if_pos h]
        cases rest with
        | nil => rfl
        | cons d rest2 =>
            dsimp only
            by_cases h2 : (c = '\r' ∧ d = '\n') ∨ (c = '\n' ∧ d = '\r')
            · rw [if_pos h2]
              simpa [crlfNormalized] using crlfNormalized_convertToCrLf rest2
            · rw [if_neg h2]
              simpa [crlfNormalized] using crlfNormalized_convertToCrLf (d :: rest2)
      · rw [if_neg h]
        push_neg at h
        rw [crlfNormalized.eq_def]
        dsimp only
        rw [if_neg h.1, if_neg h.2]
        exact crlfNormalized_convertToCrLf rest

/-- C10: with the documenter constructed as by the CLI actions
(`documenterConfig` undefined), the newline kind passed to the file
writer is `CrLf`, the written bytes are the CRLF conversion of the page
content whatever the platform's native conversion is, and the result
contains only CRLF line breaks. -/
theorem cli_pages_written_with_crlf (platformConversion : List Char → List Char)
    (pageContent : String) :
    writeFileNewlineKind cliDocumenterConfig = NewlineKind.CrLf ∧
    writtenPageBytes platformConversion cliDocumenterConfig pageContent =
      String.mk (convertToCrLf pageContent.data) ∧
    crlfNormalized (String.mk (convertToCrLf pageContent.data)).data = true := by
  refine ⟨rfl, rfl, ?_⟩
  exact crlfNormalized_convertToCrLf pageContent.data

end ApiDocumenterHugo
